import Mathlib

/-!
Shallow embedding of the RustChain arena combat-economy engine
(`rustchain_style_system.py`, `rustchain_blood_economy.py`,
`rustchain_51_attack.py`) and proofs about the spec's claims.

Python floats and `Decimal` values are modelled as exact rationals (ℚ);
Python ints as ℤ/ℕ.  Wall-clock reads (`time.time()`) are passed in
explicitly as a `now : ℚ` argument.  Python dicts keyed by player name
are modelled as association lists.
-/

namespace RustChain

/-- Python `int(x)` on a float truncates toward zero. -/
def truncQ (q : ℚ) : ℤ := if 0 ≤ q then ⌊q⌋ else -⌊-q⌋

namespace StyleSys

/-- `StyleRank` IntEnum from `rustchain_style_system.py`. -/
inductive StyleRank where
  | dDormant
  | cCalculating
  | bBuilding
  | aAttacking
  | sStaking
  | ssSlashing
  | sssSatoshi
deriving DecidableEq, Repr

open StyleRank

/-- The underlying IntEnum value (used for `>` comparisons between ranks). -/
def rankValue : StyleRank → ℕ
  | dDormant => 0
  | cCalculating => 1
  | bBuilding => 2
  | aAttacking => 3
  | sStaking => 4
  | ssSlashing => 5
  | sssSatoshi => 6

/-- `RANK_CONFIG[rank]["threshold"]`. -/
def threshold : StyleRank → ℤ
  | dDormant => 0
  | cCalculating => 100
  | bBuilding => 300
  | aAttacking => 600
  | sStaking => 1000
  | ssSlashing => 1500
  | sssSatoshi => 2500

/-- `RANK_CONFIG[rank]["decay_rate"]` (points per second). -/
def decayRate : StyleRank → ℤ
  | dDormant => 0
  | cCalculating => 10
  | bBuilding => 15
  | aAttacking => 25
  | sStaking => 40
  | ssSlashing => 60
  | sssSatoshi => 100

/-- `RANK_CONFIG[rank]["multiplier"]` (a `Decimal` in the source). -/
def multiplier : StyleRank → ℚ
  | dDormant => 1
  | cCalculating => 12/10
  | bBuilding => 15/10
  | aAttacking => 2
  | sStaking => 3
  | ssSlashing => 4
  | sssSatoshi => 5

/-- `reversed(list(StyleRank))`: ranks scanned from highest to lowest. -/
def ranksDescending : List StyleRank :=
  [sssSatoshi, ssSlashing, sStaking, aAttacking, bBuilding, cCalculating, dDormant]

/-- The highest-to-lowest threshold scan used by `add_points`, `decay` and
`on_death`: the first rank (scanning downward) whose threshold is ≤ the
point total, defaulting to `D_DORMANT` when none matches. -/
def rankFor (points : ℤ) : StyleRank :=
  (ranksDescending.find? (fun r => decide (threshold r ≤ points))).getD dDormant

/-- `PlayerStyle` dataclass. -/
structure PlayerStyle where
  name : String
  points : ℤ := 0
  rank : StyleRank := dDormant
  kills_this_life : ℕ := 0
  total_kills : ℕ := 0
  deaths : ℕ := 0
  last_kill_time : ℚ := 0
  recent_kills : List ℚ := []
  weapons_used : List String := []
  last_killer : String := ""
  total_rtc : ℚ := 0
  killstreak : ℕ := 0
  best_streak : ℕ := 0
deriving DecidableEq, Repr

/-- `PlayerStyle(name=name)` with dataclass field defaults. -/
def mkPlayer (name : String) : PlayerStyle := { name := name }

/-- `PlayerStyle.add_points`: add style points, rescan rank from the top,
report the new rank and whether this was a rank up. -/
def addPoints (p : PlayerStyle) (pts : ℤ) : PlayerStyle × StyleRank × Bool :=
  let newPoints := p.points + pts
  let newRank := rankFor newPoints
  ({ p with points := newPoints, rank := newRank },
   newRank,
   decide (rankValue p.rank < rankValue newRank))

/-- `PlayerStyle.decay`: no-op at `D_DORMANT`, otherwise subtract
`int(decay_rate * delta_time)` floored at 0 and rescan the rank. -/
def decay (p : PlayerStyle) (delta_time : ℚ) : PlayerStyle :=
  if p.rank = dDormant then p
  else
    let pts := max 0 (p.points - truncQ ((decayRate p.rank : ℚ) * delta_time))
    { p with points := pts, rank := rankFor pts }

/-- `PlayerStyle.on_death`: halve points (Python `//` floor division),
clear per-life state, rescan rank. -/
def onDeath (p : PlayerStyle) : PlayerStyle :=
  let pts := Int.fdiv p.points 2
  { p with
    points := pts
    kills_this_life := 0
    killstreak := 0
    weapons_used := []
    recent_kills := []
    rank := rankFor pts }

/-- `StyleSystem` state (the sqlite side effects are out of scope). -/
structure StyleSystem where
  players : List (String × PlayerStyle) := []
  first_blood_claimed : Bool := false
deriving DecidableEq, Repr

/-- `StyleSystem()` with an empty player registry. -/
def initSystem : StyleSystem := {}

def lookupPlayer (sys : StyleSystem) (name : String) : Option PlayerStyle :=
  (sys.players.find? (fun e => decide (e.1 = name))).map (·.2)

/-- The value `get_player` returns (lazily created default when absent). -/
def getPlayer (sys : StyleSystem) (name : String) : PlayerStyle :=
  (lookupPlayer sys name).getD (mkPlayer name)

/-- The registry effect of `get_player`: insert a default record if absent. -/
def ensurePlayer (sys : StyleSystem) (name : String) : StyleSystem :=
  match lookupPlayer sys name with
  | some _ => sys
  | none => { sys with players := sys.players ++ [(name, mkPlayer name)] }

/-- Overwrite the record stored under `name` (in-place mutation of the
object held in the `players` dict). -/
def setPlayer (sys : StyleSystem) (name : String) (p : PlayerStyle) : StyleSystem :=
  { sys with players := sys.players.map (fun e => if e.1 = name then (e.1, p) else e) }

/-- One entry of the `COMBOS` table. -/
structure ComboDef where
  name : String
  kills : ℕ
  window : ℚ
  bonus : ℤ
deriving DecidableEq, Repr

/-- `sorted(COMBOS.items(), key=lambda x: -x[1]["kills"])`: combo
definitions ordered from largest kill requirement to smallest. -/
def comboDefs : List ComboDef :=
  [⟨"G O D L I K E", 5, 6, 500⟩,
   ⟨"ULTRA KILL", 4, 5, 300⟩,
   ⟨"TRIPLE KILL", 3, 4, 150⟩,
   ⟨"DOUBLE KILL", 2, 3, 50⟩]

/-- `WEAPON_VARIETY_BONUS`. -/
def weaponVarietyBonus : ℤ := 25

/-- Python substring test `needle in hay` on strings. -/
def listStartsWith : List Char → List Char → Bool
  | _, [] => true
  | [], _ :: _ => false
  | a :: as, b :: bs => a = b && listStartsWith as bs

def listHasSub (hay needle : List Char) : Bool :=
  if listStartsWith hay needle then true
  else
    match hay with
    | [] => false
    | _ :: t => listHasSub t needle

def strHasSub (hay needle : String) : Bool := listHasSub hay.data needle.data

/-- The `streak_bonuses` dict lookup in `process_kill`
(name, style points, RTC bonus at exact streak values). -/
def streakBonus (streak : ℕ) : Option (String × ℤ × ℚ) :=
  if streak = 5 then some ("KILLING SPREE", 100, 5/1000)
  else if streak = 10 then some ("RAMPAGE", 250, 1/100)
  else if streak = 15 then some ("DOMINATING", 400, 15/1000)
  else if streak = 20 then some ("UNSTOPPABLE", 600, 2/100)
  else if streak = 25 then some ("GODLIKE", 1000, 25/1000)
  else none

/-- The style-point / RTC-bonus accumulation of `process_kill` (the
`SPECIAL BONUSES`, weapon-variety, combo and killstreak sections), given
the killer's record after the kill-timing update. -/
structure BonusBreakdown where
  style_points : ℤ
  bonus_rtc : ℚ
  bonuses : List String
  combo : Option String
  weapons_used : List String
  last_killer : String
deriving DecidableEq, Repr

def killBonuses (claimed : Bool) (p : PlayerStyle) (victim weapon : String)
    (now : ℚ) : BonusBreakdown :=
  -- first blood
  let fbPts : ℤ := if claimed then 0 else 200
  let fbRtc : ℚ := if claimed then 0 else 5/1000
  let fbBon : List String := if claimed then [] else ["FIRST BLOOD"]
  -- revenge
  let revenge := p.last_killer = victim
  let revPts : ℤ := if revenge then 75 else 0
  let revRtc : ℚ := if revenge then 1/1000 else 0
  let revBon : List String := if revenge then ["REVENGE"] else []
  let lastKiller := if revenge then "" else p.last_killer
  -- boss kills (substring test on the victim's name)
  let bossPts : ℤ :=
    if strHasSub victim "Boris" then 150
    else if strHasSub victim "Sophia" then 150 else 0
  let bossRtc : ℚ :=
    if strHasSub victim "Boris" then 3/1000
    else if strHasSub victim "Sophia" then 3/1000 else 0
  let bossBon : List String :=
    if strHasSub victim "Boris" then ["BOSS SLAIN: BORIS"]
    else if strHasSub victim "Sophia" then ["BOSS SLAIN: SOPHIA"] else []
  -- weapon variety
  let newWeapon := ¬ weapon ∈ p.weapons_used
  let weapons := if newWeapon then p.weapons_used ++ [weapon] else p.weapons_used
  let varApplies := newWeapon ∧ 1 < weapons.length
  let varPts : ℤ := if varApplies then weaponVarietyBonus * (weapons.length : ℤ) else 0
  let varBon : List String :=
    if varApplies then ["VARIETY x" ++ toString weapons.length] else []
  -- combo detection (largest kill requirement first, first match wins)
  let comboHit := comboDefs.find? (fun c =>
    decide (c.kills ≤ (p.recent_kills.filter (fun t => decide (now - t < c.window))).length))
  let comboPts : ℤ := match comboHit with | some c => c.bonus | none => 0
  let comboRtc : ℚ := match comboHit with | some c => (1/1000 : ℚ) * c.kills | none => 0
  let comboName : Option String := match comboHit with | some c => some c.name | none => none
  -- killstreak bonuses at exact streak values
  let skPts : ℤ := match streakBonus p.killstreak with | some b => b.2.1 | none => 0
  let skRtc : ℚ := match streakBonus p.killstreak with | some b => b.2.2 | none => 0
  let skBon : List String :=
    match streakBonus p.killstreak with
    | some b => [b.1 ++ " (" ++ toString p.killstreak ++ ")"]
    | none => []
  { style_points := 100 + fbPts + revPts + bossPts + varPts + comboPts + skPts
    bonus_rtc := fbRtc + revRtc + bossRtc + comboRtc + skRtc
    bonuses := fbBon ++ revBon ++ bossBon ++ varBon ++ skBon
    combo := comboName
    weapons_used := weapons
    last_killer := lastKiller }

/-- The result dict built by `process_kill`. -/
structure KillResult where
  killer : String
  victim : String
  weapon : String
  base_rtc : ℚ
  bonus_rtc : ℚ
  style_points : ℤ
  bonuses : List String
  combo : Option String
  rank_before : StyleRank
  rank_after : StyleRank
  ranked_up : Bool
  multiplier : ℚ
  total_rtc : ℚ
deriving DecidableEq, Repr

/-- `StyleSystem.process_kill(killer, victim, weapon)` at wall-clock time
`now`.  Mirrors the source statement by statement; when
`killer = victim` the two `get_player` references alias the same dict
entry, which the association-list updates reproduce. -/
def processKill (sys : StyleSystem) (killer victim weapon : String) (now : ℚ) :
    StyleSystem × KillResult :=
  let sys1 := ensurePlayer sys killer
  let sys2 := ensurePlayer sys1 victim
  let player0 := getPlayer sys2 killer
  let rank_before := player0.rank
  -- kill timing / counters
  let recent := (player0.recent_kills ++ [now]).filter (fun t => decide (now - t < 10))
  let streak := player0.killstreak + 1
  let player1 := { player0 with
    recent_kills := recent
    last_kill_time := now
    kills_this_life := player0.kills_this_life + 1
    total_kills := player0.total_kills + 1
    killstreak := streak
    best_streak := if player0.best_streak < streak then streak else player0.best_streak }
  -- special bonuses, variety, combos, killstreaks
  let bb := killBonuses sys2.first_blood_claimed player1 victim weapon now
  let claimed := true
  let player3 := { player1 with
    last_killer := bb.last_killer
    weapons_used := bb.weapons_used }
  let base_rtc : ℚ := 1/1000
  -- apply style points, recompute rank, then apply the multiplier
  let ap := addPoints player3 bb.style_points
  let player4 := ap.1
  let new_rank := ap.2.1
  let ranked_up := ap.2.2
  let total_rtc := (base_rtc + bb.bonus_rtc) * multiplier new_rank
  let player5 := { player4 with total_rtc := player4.total_rtc + total_rtc }
  let sys3 := setPlayer { sys2 with first_blood_claimed := claimed } killer player5
  -- update victim (aliases the killer's record when killer = victim)
  let vict0 := getPlayer sys3 victim
  let vict1 := onDeath { vict0 with last_killer := killer }
  let vict2 := { vict1 with deaths := vict1.deaths + 1 }
  let sys4 := setPlayer sys3 victim vict2
  (sys4,
   { killer := killer
     victim := victim
     weapon := weapon
     base_rtc := base_rtc
     bonus_rtc := bb.bonus_rtc
     style_points := bb.style_points
     bonuses := bb.bonuses
     combo := bb.combo
     rank_before := rank_before
     rank_after := new_rank
     ranked_up := ranked_up
     multiplier := multiplier new_rank
     total_rtc := total_rtc })

/-- The kill-dispatch guard in `main()`: a parsed kill line is forwarded to
`process_kill` only when both names are non-empty and differ. -/
def dispatchKill (sys : StyleSystem) (killer victim weapon : String) (now : ℚ) :
    StyleSystem × Option KillResult :=
  if killer ≠ "" ∧ victim ≠ "" ∧ killer ≠ victim then
    let r := processKill sys killer victim weapon now
    (r.1, some r.2)
  else (sys, none)

/-- `StyleSystem.update` with an explicit tick length: decay every player. -/
def updateStyle (sys : StyleSystem) (delta : ℚ) : StyleSystem :=
  { sys with players := sys.players.map (fun e => (e.1, decay e.2 delta)) }

/-- The operations that mutate style points. -/
inductive SOp where
  | kill (killer victim weapon : String) (now : ℚ)
  | tick (delta : ℚ)
deriving Repr

def applySOp (sys : StyleSystem) : SOp → StyleSystem
  | .kill k v w now => (processKill sys k v w now).1
  | .tick delta => updateStyle sys delta

def applySOps (sys : StyleSystem) (ops : List SOp) : StyleSystem :=
  ops.foldl applySOp sys

/-- The spec's wording of the rank invariant: `r` is the highest
configured rank whose point threshold is ≤ `pts`. -/
def isHighestRankFor (r : StyleRank) (pts : ℤ) : Prop :=
  threshold r ≤ pts ∧ ∀ r', threshold r' ≤ pts → rankValue r' ≤ rankValue r

/-- Per-player style invariant: non-negative points and a rank that is
exactly the highest rank whose threshold the points meet. -/
def styleOK (p : PlayerStyle) : Prop :=
  0 ≤ p.points ∧ isHighestRankFor p.rank p.points

/-- System-wide style invariant. -/
def sysOK (sys : StyleSystem) : Prop :=
  ∀ n p, (n, p) ∈ sys.players → styleOK p

/-- A reachable-looking state for the rank-up scenario: killer `K` at 700
points (rank `A_ATTACKING`), one kill one second ago (so the next kill is
a `DOUBLE KILL`, +50 points), first blood gone, weapon already used. -/
def sys700 : StyleSystem :=
  { players := [("K",
      { name := "K"
        points := 700
        rank := .aAttacking
        kills_this_life := 1
        total_kills := 1
        last_kill_time := 99
        recent_kills := [99]
        weapons_used := ["rocket"]
        killstreak := 1
        best_streak := 1 })]
    first_blood_claimed := true }

/-- A player at 150 points, rank `C_CALCULATING` (decay rate 10). -/
def p150 : PlayerStyle :=
  { name := "P", points := 150, rank := .cCalculating }

/-- A player at rank `D_DORMANT`. -/
def pDormant : PlayerStyle := mkPlayer "Q"

/-- The record the kill `A` kills `B` at `t = 0` produces for `A` in a
fresh system (first blood: 100 + 200 points). -/
def killWitnessPlayer : PlayerStyle :=
  { name := "A"
    points := 300
    rank := .bBuilding
    kills_this_life := 1
    total_kills := 1
    deaths := 0
    last_kill_time := 0
    recent_kills := [0]
    weapons_used := ["w"]
    last_killer := ""
    total_rtc := 9/1000
    killstreak := 1
    best_streak := 1 }

end StyleSys

namespace Blood

/-- Configuration constants of `rustchain_blood_economy.py`. -/
def SHIELD_MAX : ℚ := 100
def SHIELD_DECAY_RATE : ℚ := 2
def SHIELD_DECAY_DELAY : ℚ := 5
def DAMAGE_TO_SHIELD_RATIO : ℚ := 15/100
def CLOSE_RANGE_MULTIPLIER : ℚ := 3
def MELEE_KILL_SHIELD : ℚ := 50
def HEADSHOT_BONUS : ℚ := 25
def KILL_SHIELD_BONUS : ℚ := 20
def CLOSE_RANGE : ℚ := 300
def MID_RANGE : ℚ := 800
def LONG_RANGE : ℚ := 1500

/-- `DamageType` IntEnum. -/
inductive DamageType where
  | melee | shotgun | machinegun | rocket | grenade | electro
  | crylink | vortex | hagar | devastator | mortar
deriving DecidableEq, Repr

/-- `WEAPON_RANGE_BONUS` table (total on the enum, so the `.get` default
never fires). -/
def weaponRangeBonus : DamageType → ℚ
  | .melee => 4
  | .shotgun => 5/2
  | .machinegun => 1
  | .rocket => 3/2
  | .grenade => 6/5
  | .electro => 13/10
  | .crylink => 1
  | .vortex => 1/2
  | .hagar => 11/10
  | .devastator => 7/5
  | .mortar => 11/10

/-- One entry of the `recent_hits` deque. -/
structure Hit where
  time : ℚ
  damage : ℚ
  weapon : DamageType
  distance : ℚ
deriving DecidableEq, Repr

/-- `deque(maxlen=10)` append: drop from the front beyond 10 entries. -/
def pushHit (hits : List Hit) (h : Hit) : List Hit :=
  let l := hits ++ [h]
  if 10 < l.length then l.drop (l.length - 10) else l

/-- `BloodState` dataclass (the `last_action_time` dataclass default is the
creation-time clock, supplied by the caller). -/
structure BloodState where
  shield : ℚ := 0
  last_damage_dealt : ℚ := 0
  last_damage_taken : ℚ := 0
  last_action_time : ℚ
  damage_dealt_total : ℚ := 0
  shield_gained_total : ℚ := 0
  decay_total : ℚ := 0
  recent_hits : List Hit := []
  in_combat : Bool := false
  combat_start : ℚ := 0
  kills_without_damage : ℕ := 0
deriving DecidableEq, Repr

def mkBloodState (now : ℚ) : BloodState := { last_action_time := now }

/-- `BloodState.is_decaying`. -/
def isDecaying (st : BloodState) (now : ℚ) : Bool :=
  decide (SHIELD_DECAY_DELAY < now - st.last_action_time)

/-- `BloodEconomy` manager state. -/
structure BloodEconomy where
  players : List (String × BloodState) := []
  last_update : ℚ
  total_shield_generated : ℚ := 0
  total_shield_decayed : ℚ := 0
  most_aggressive : Option String := none
  most_aggressive_shield : ℚ := 0
deriving DecidableEq, Repr

def initBlood (now : ℚ) : BloodEconomy := { last_update := now }

def lookupBlood (econ : BloodEconomy) (name : String) : Option BloodState :=
  (econ.players.find? (fun e => decide (e.1 = name))).map (·.2)

/-- The value `get_player` returns. -/
def getBlood (econ : BloodEconomy) (name : String) (now : ℚ) : BloodState :=
  (lookupBlood econ name).getD (mkBloodState now)

/-- The registry effect of `get_player`. -/
def ensureBlood (econ : BloodEconomy) (name : String) (now : ℚ) : BloodEconomy :=
  match lookupBlood econ name with
  | some _ => econ
  | none => { econ with players := econ.players ++ [(name, mkBloodState now)] }

def setBlood (econ : BloodEconomy) (name : String) (st : BloodState) : BloodEconomy :=
  { econ with players := econ.players.map (fun e => if e.1 = name then (e.1, st) else e) }

/-- The distance multiplier computed inside `on_damage_dealt`: close range
3x, linear fall-off to 1x up to `MID_RANGE`, then down to 0.5x. -/
def distanceMult (distance : ℚ) : ℚ :=
  if distance ≤ CLOSE_RANGE then CLOSE_RANGE_MULTIPLIER
  else if distance ≤ MID_RANGE then
    let t := (distance - CLOSE_RANGE) / (MID_RANGE - CLOSE_RANGE)
    CLOSE_RANGE_MULTIPLIER - (CLOSE_RANGE_MULTIPLIER - 1) * t
  else
    let t := min 1 ((distance - MID_RANGE) / (LONG_RANGE - MID_RANGE))
    1 - (1/2) * t

/-- `_get_bonuses` (display strings attached to the damage report). -/
def getBonuses (st : BloodState) (weapon : DamageType) (distance : ℚ)
    (headshot : Bool) (now : ℚ) : List String :=
  let b1 : List String :=
    if weapon = .melee then ["BLOOD RAGE"]
    else if weapon = .shotgun ∧ distance ≤ CLOSE_RANGE then ["BUCKSHOT BAPTISM"] else []
  let b2 : List String := if headshot then ["PRECISION"] else []
  let b3 : List String :=
    if distance ≤ CLOSE_RANGE then ["INTIMATE"]
    else if LONG_RANGE ≤ distance then ["SNIPER (reduced)"] else []
  let rapid := (st.recent_hits.filter (fun h => decide (now - h.time < 2))).length
  let b4 : List String := if 3 ≤ rapid then ["RAPID FIRE x" ++ toString rapid] else []
  b1 ++ b2 ++ b3 ++ b4

/-- The report dict returned by `on_damage_dealt`. -/
structure DamageReport where
  attacker : String
  shield_gained : ℚ
  shield_current : ℚ
  distance_mult : ℚ
  weapon_mult : ℚ
  headshot : Bool
  bonuses : List String
deriving DecidableEq, Repr

/-- `BloodEconomy.on_damage_dealt`. -/
def onDamageDealt (econ : BloodEconomy) (attacker _victim : String) (damage : ℚ)
    (weapon : DamageType) (distance : ℚ) (headshot : Bool) (now : ℚ) :
    BloodEconomy × DamageReport :=
  let econ1 := ensureBlood econ attacker now
  let st := getBlood econ1 attacker now
  let base_shield := damage * DAMAGE_TO_SHIELD_RATIO
  let distance_mult := distanceMult distance
  let weapon_mult := weaponRangeBonus weapon
  let gain0 := base_shield * distance_mult * weapon_mult
  let shield_gain := if headshot then gain0 + HEADSHOT_BONUS else gain0
  let old_shield := st.shield
  let newShield := min SHIELD_MAX (st.shield + shield_gain)
  let actual_gain := newShield - old_shield
  let st1 := { st with
    shield := newShield
    last_damage_dealt := damage
    last_action_time := now
    damage_dealt_total := st.damage_dealt_total + damage
    shield_gained_total := st.shield_gained_total + actual_gain
    in_combat := true
    combat_start := now
    recent_hits := pushHit st.recent_hits ⟨now, damage, weapon, distance⟩ }
  let econ2 := setBlood econ1 attacker st1
  let newBest := econ2.most_aggressive_shield < st1.shield_gained_total
  let econ3 := { econ2 with
    total_shield_generated := econ2.total_shield_generated + actual_gain
    most_aggressive := if newBest then some attacker else econ2.most_aggressive
    most_aggressive_shield :=
      if newBest then st1.shield_gained_total else econ2.most_aggressive_shield }
  (econ3,
   { attacker := attacker
     shield_gained := actual_gain
     shield_current := st1.shield
     distance_mult := distance_mult
     weapon_mult := weapon_mult
     headshot := headshot
     bonuses := getBonuses st1 weapon distance headshot now })

/-- The report dict returned by `on_kill`. -/
structure KillShieldReport where
  killer : String
  victim : String
  shield_gained : ℚ
  shield_current : ℚ
  bonuses : List String
  total_bonus : ℚ
deriving DecidableEq, Repr

/-- `BloodEconomy.on_kill`. -/
def onKillBlood (econ : BloodEconomy) (killer victim : String)
    (weapon : DamageType) (distance : ℚ) (now : ℚ) :
    BloodEconomy × KillShieldReport :=
  let econ1 := ensureBlood econ killer now
  let st := getBlood econ1 killer now
  let meleeB := weapon = .melee
  let closeB := distance ≤ CLOSE_RANGE
  let untouchB := 3 ≤ st.kills_without_damage
  let shield_gain := KILL_SHIELD_BONUS
    + (if meleeB then MELEE_KILL_SHIELD else 0)
    + (if closeB then 15 else 0)
    + (if untouchB then 10 * (st.kills_without_damage : ℚ) else 0)
  let bonuses : List String :=
    (if meleeB then ["EXECUTION"] else [])
    ++ (if closeB then ["POINT BLANK"] else [])
    ++ (if untouchB then ["UNTOUCHABLE x" ++ toString st.kills_without_damage] else [])
  let st1 := { st with kills_without_damage := st.kills_without_damage + 1 }
  let old_shield := st1.shield
  let newShield := min SHIELD_MAX (st1.shield + shield_gain)
  let actual_gain := newShield - old_shield
  let st2 := { st1 with
    shield := newShield
    last_action_time := now
    shield_gained_total := st1.shield_gained_total + actual_gain }
  let econ2 := setBlood econ1 killer st2
  let econ3 := { econ2 with
    total_shield_generated := econ2.total_shield_generated + actual_gain }
  (econ3,
   { killer := killer
     victim := victim
     shield_gained := actual_gain
     shield_current := st2.shield
     bonuses := bonuses
     total_bonus := shield_gain })

/-- The report dict returned by `on_damage_taken`. -/
structure TakenReport where
  player : String
  damage : ℚ
  shield_current : ℚ
  untouchable_lost : Bool
deriving DecidableEq, Repr

/-- `BloodEconomy.on_damage_taken`: the untouchable streak is zeroed
*before* the report field reads it. -/
def onDamageTaken (econ : BloodEconomy) (player : String) (damage : ℚ)
    (_attacker : String) (now : ℚ) : BloodEconomy × TakenReport :=
  let econ1 := ensureBlood econ player now
  let st := getBlood econ1 player now
  let st1 := { st with last_damage_taken := damage, kills_without_damage := 0 }
  let econ2 := setBlood econ1 player st1
  (econ2,
   { player := player
     damage := damage
     shield_current := st1.shield
     untouchable_lost := if 0 < st1.kills_without_damage then true else false })

/-- `BloodEconomy.on_death`: zero the shield and clear combat state. -/
def onDeathBlood (econ : BloodEconomy) (player : String) (now : ℚ) :
    BloodEconomy × ℚ :=
  let econ1 := ensureBlood econ player now
  let st := getBlood econ1 player now
  let lost := st.shield
  let st1 := { st with
    shield := 0
    kills_without_damage := 0
    in_combat := false
    recent_hits := [] }
  (setBlood econ1 player st1, lost)

/-- Per-player body of `BloodEconomy.update`: idle decay plus the
combat-ended check; returns the new state and the decayed amount
accumulated into the match totals. -/
def updateOne (st : BloodState) (dt now : ℚ) : BloodState × ℚ :=
  let p :=
    if 0 < st.shield ∧ isDecaying st now then
      let decayAmt := SHIELD_DECAY_RATE * dt
      let old_shield := st.shield
      let newShield := max 0 (st.shield - decayAmt)
      let actual_decay := old_shield - newShield
      if 0 < actual_decay then
        ({ st with shield := newShield, decay_total := st.decay_total + actual_decay },
         actual_decay)
      else ({ st with shield := newShield }, 0)
    else (st, 0)
  let stA := p.1
  let stB :=
    if stA.in_combat ∧ 3 < now - stA.last_action_time then
      { stA with in_combat := false }
    else stA
  (stB, p.2)

/-- `BloodEconomy.update(dt)` at wall-clock `now`. -/
def updateBlood (econ : BloodEconomy) (dt now : ℚ) : BloodEconomy :=
  let stepped := econ.players.map (fun e => (e.1, updateOne e.2 dt now))
  { econ with
    last_update := now
    players := stepped.map (fun e => (e.1, e.2.1))
    total_shield_decayed :=
      econ.total_shield_decayed + (stepped.map (fun e => e.2.2)).sum }

/-- The blood-economy event stream. -/
inductive BOp where
  | damageDealt (attacker victim : String) (damage : ℚ) (weapon : DamageType)
      (distance : ℚ) (headshot : Bool) (now : ℚ)
  | killEvent (killer victim : String) (weapon : DamageType) (distance now : ℚ)
  | damageTaken (player : String) (damage : ℚ) (attacker : String) (now : ℚ)
  | death (player : String) (now : ℚ)
  | tick (dt now : ℚ)
deriving Repr

def applyBOp (econ : BloodEconomy) : BOp → BloodEconomy
  | .damageDealt a v dmg w dist h now => (onDamageDealt econ a v dmg w dist h now).1
  | .killEvent k v w dist now => (onKillBlood econ k v w dist now).1
  | .damageTaken p dmg a now => (onDamageTaken econ p dmg a now).1
  | .death p now => (onDeathBlood econ p now).1
  | .tick dt now => updateBlood econ dt now

def applyBOps (econ : BloodEconomy) (ops : List BOp) : BloodEconomy :=
  ops.foldl applyBOp econ

/-- The validity side conditions the spec's error-handling sentences are
about: non-negative damage on damage-dealt events and non-negative tick
lengths.  (The code does *not* enforce these.) -/
def validBOp : BOp → Prop
  | .damageDealt _ _ dmg _ _ _ _ => 0 ≤ dmg
  | .tick dt _ => 0 ≤ dt
  | _ => True

/-- Per-player shield invariant: shield in `[0, SHIELD_MAX]`. -/
def shieldOK (st : BloodState) : Prop := 0 ≤ st.shield ∧ st.shield ≤ SHIELD_MAX

/-- System-wide shield invariant. -/
def econOK (econ : BloodEconomy) : Prop :=
  ∀ n st, (n, st) ∈ econ.players → shieldOK st

/-- The shield of `name` in an economy (0 for unknown players). -/
def shieldOf (econ : BloodEconomy) (name : String) : ℚ :=
  (getBlood econ name 0).shield

/-- The state the spec's clamping scenario produces: 0 shield, 60 damage
at distance 100 with the melee multiplier 4.0 gains 108, clamped to
100. -/
def bloodWitnessState : BloodState :=
  { shield := 100
    last_damage_dealt := 60
    last_damage_taken := 0
    last_action_time := 0
    damage_dealt_total := 60
    shield_gained_total := 100
    decay_total := 0
    recent_hits := [⟨0, 60, .melee, 100⟩]
    in_combat := true
    combat_start := 0
    kills_without_damage := 0 }

end Blood

namespace Attack

/-- Configuration constants of `rustchain_51_attack.py`. -/
def MATCH_DURATION : ℚ := 600
def CAPTURE_TIME : ℚ := 3
def RTC_MINING_RATE : ℚ := 1/1000
def ATTACK_THRESHOLD : ℚ := 51/100
def LOSER_PENALTY : ℚ := 1/2

/-- `ControlState` enum. -/
inductive ControlState where
  | neutral | contested | controlledTeam1 | controlledTeam2
deriving DecidableEq, Repr

/-- `AttackPhase` enum. -/
inductive AttackPhase where
  | mining | attackImminent | attackExecuted | defenseRally
deriving DecidableEq, Repr

/-- `TeamState` dataclass. -/
structure TeamState where
  name : String
  members : List String := []
  control_time : ℚ := 0
  rtc_mined : ℚ := 0
  kills : ℕ := 0
  deaths : ℕ := 0
  captures : ℕ := 0
deriving DecidableEq, Repr

/-- `PlayerStats` dataclass (the `team` field keeps the raw string the
player was registered with, `"team1"` or `"team2"`). -/
structure PlayerStats where
  name : String
  team : String
  control_time : ℚ := 0
  rtc_earned : ℚ := 0
  point_captures : ℕ := 0
  point_defenses : ℕ := 0
  kills_on_point : ℕ := 0
deriving DecidableEq, Repr

/-- `FiftyOneAttackMode` state.  `capture_progress` and
`players_on_point` are two-key dicts, modelled as one field per team. -/
structure Mode where
  team1 : TeamState
  team2 : TeamState
  control_state : ControlState := .neutral
  controlling_team : Option String := none
  progress1 : ℚ := 0
  progress2 : ℚ := 0
  onPoint1 : List String := []
  onPoint2 : List String := []
  match_start : ℚ := 0
  match_duration : ℚ := MATCH_DURATION
  phase : AttackPhase := .mining
  attack_executed_by : Option String := none
  players : List (String × PlayerStats) := []
  match_rtc_pool : ℚ := 1
  winner_bonus_pool : ℚ := 1/2
deriving DecidableEq, Repr

/-- The constructor `FiftyOneAttackMode(team1_name, team2_name)`. -/
def initMode (team1_name team2_name : String) : Mode :=
  { team1 := { name := team1_name }, team2 := { name := team2_name } }

/-- `start_match` (resets control state, progress, phase and team
counters; membership and player stats are kept). -/
def startMatch (m : Mode) (now : ℚ) : Mode :=
  { m with
    match_start := now
    control_state := .neutral
    controlling_team := none
    progress1 := 0
    progress2 := 0
    phase := .mining
    attack_executed_by := none
    team1 := { m.team1 with control_time := 0, rtc_mined := 0 }
    team2 := { m.team2 with control_time := 0, rtc_mined := 0 } }

/-- `add_player(name, team)`: any `team` string other than `"team1"`
joins team2's member set, but the raw string is kept on the stats. -/
def addPlayer (m : Mode) (name team : String) : Mode :=
  let m1 :=
    if team = "team1" then { m with team1 := { m.team1 with members := m.team1.members ++ [name] } }
    else { m with team2 := { m.team2 with members := m.team2.members ++ [name] } }
  { m1 with players := m1.players ++ [(name, { name := name, team := team : PlayerStats })] }

def lookupStats (m : Mode) (name : String) : Option PlayerStats :=
  (m.players.find? (fun e => decide (e.1 = name))).map (·.2)

def setStats (m : Mode) (name : String) (st : PlayerStats) : Mode :=
  { m with players := m.players.map (fun e => if e.1 = name then (e.1, st) else e) }

/-- The capture-award loop of `_process_capture`: each player on the
point gets a capture credit. -/
def creditCaptures (ps : List (String × PlayerStats)) (onPt : List String) :
    List (String × PlayerStats) :=
  onPt.foldl (fun acc pl =>
    acc.map (fun e =>
      if e.1 = pl then (e.1, { e.2 with point_captures := e.2.point_captures + 1 }) else e)) ps

/-- The mining-distribution loop of `update`: each player on the point
gets `per_player` RTC and `dt` of personal control time. -/
def creditMining (ps : List (String × PlayerStats)) (onPt : List String)
    (per_player dt : ℚ) : List (String × PlayerStats) :=
  onPt.foldl (fun acc pl =>
    acc.map (fun e =>
      if e.1 = pl then
        (e.1, { e.2 with rtc_earned := e.2.rtc_earned + per_player
                         control_time := e.2.control_time + dt })
      else e)) ps

/-- `player_enter_point` (unknown players are rejected; a `team` string
other than `"team1"`/`"team2"` would raise a `KeyError` in the source and
is modelled as leaving the zone sets unchanged). -/
def enterPoint (m : Mode) (player : String) : Mode :=
  match lookupStats m player with
  | none => m
  | some st =>
    if st.team = "team1" then
      { m with onPoint1 := if player ∈ m.onPoint1 then m.onPoint1 else m.onPoint1 ++ [player] }
    else if st.team = "team2" then
      { m with onPoint2 := if player ∈ m.onPoint2 then m.onPoint2 else m.onPoint2 ++ [player] }
    else m

/-- `player_leave_point`. -/
def leavePoint (m : Mode) (player : String) : Mode :=
  match lookupStats m player with
  | none => m
  | some st =>
    if st.team = "team1" then { m with onPoint1 := m.onPoint1.filter (fun p => decide (p ≠ player)) }
    else if st.team = "team2" then { m with onPoint2 := m.onPoint2.filter (fun p => decide (p ≠ player)) }
    else m

/-- `_get_control_percent` (a fraction in 0..1, not 0..100). -/
def controlPercent (m : Mode) (team : String) (match_time : ℚ) : ℚ :=
  if match_time ≤ 0 then 0
  else (if team = "team1" then m.team1.control_time else m.team2.control_time) / match_time

/-- `_process_capture(team, dt)`. -/
def processCapture (m : Mode) (team : String) (dt : ℚ) : Mode :=
  let other := if team = "team1" then "team2" else "team1"
  if m.controlling_team = some team then
    m
  else if m.controlling_team = some other then
    -- enemy controls: neutralize first
    let p := (if other = "team1" then m.progress1 else m.progress2) - dt
    if p ≤ 0 then
      let m1 := if other = "team1" then { m with progress1 := 0 } else { m with progress2 := 0 }
      { m1 with control_state := .neutral, controlling_team := none }
    else
      if other = "team1" then { m with progress1 := p } else { m with progress2 := p }
  else
    -- neutral: capture
    let p := (if team = "team1" then m.progress1 else m.progress2) + dt
    let m1 := if team = "team1" then { m with progress1 := p } else { m with progress2 := p }
    if CAPTURE_TIME ≤ p then
      let m2 := { m1 with
        controlling_team := some team
        control_state := if team = "team1" then .controlledTeam1 else .controlledTeam2 }
      let m3 :=
        if team = "team1" then { m2 with team1 := { m2.team1 with captures := m2.team1.captures + 1 } }
        else { m2 with team2 := { m2.team2 with captures := m2.team2.captures + 1 } }
      let onPt := if team = "team1" then m3.onPoint1 else m3.onPoint2
      { m3 with players := creditCaptures m3.players onPt }
    else m1

/-- The occupancy branch of `update` (contested / single-team /
abandoned), returning the event tags it logs. -/
def pointTick (m : Mode) (dt : ℚ) : Mode × List String :=
  let c1 := m.onPoint1.length
  let c2 := m.onPoint2.length
  if 0 < c1 ∧ 0 < c2 then
    ({ m with
       control_state := .contested
       progress1 := max 0 (m.progress1 - dt * (1/2))
       progress2 := max 0 (m.progress2 - dt * (1/2)) }, [])
  else if 0 < c1 then (processCapture m "team1" dt, [])
  else if 0 < c2 then (processCapture m "team2" dt, [])
  else
    let m1 := { m with
      progress1 := max 0 (m.progress1 - dt * (3/10))
      progress2 := max 0 (m.progress2 - dt * (3/10)) }
    if m1.progress1 = 0 ∧ m1.progress2 = 0 ∧ m1.control_state ≠ .neutral then
      ({ m1 with control_state := .neutral, controlling_team := none }, ["neutralized"])
    else (m1, [])

/-- The mining block of `update`: the controlling team mines
`RTC_MINING_RATE * dt`, split evenly among its players on the point. -/
def mineStep (m : Mode) (ct : String) (dt : ℚ) : Mode :=
  let rtc_gained := RTC_MINING_RATE * dt
  let m1 :=
    if ct = "team1" then
      { m with team1 := { m.team1 with
          rtc_mined := m.team1.rtc_mined + rtc_gained
          control_time := m.team1.control_time + dt } }
    else
      { m with team2 := { m.team2 with
          rtc_mined := m.team2.rtc_mined + rtc_gained
          control_time := m.team2.control_time + dt } }
  let onPt := if ct = "team1" then m1.onPoint1 else m1.onPoint2
  if onPt ≠ [] then
    let per_player := rtc_gained / (onPt.length : ℚ)
    { m1 with players := creditMining m1.players onPt per_player dt }
  else m1

/-- The phase-transition block of `update`. -/
def phaseStep (m : Mode) (p1 p2 : ℚ) : Mode × List String :=
  let (mA, a1) :=
    if m.phase = .mining ∧ (45/100 ≤ p1 ∨ 45/100 ≤ p2) then
      ({ m with phase := .attackImminent }, ["attack_imminent"])
    else (m, [])
  if ATTACK_THRESHOLD ≤ p1 ∧ mA.attack_executed_by = none then
    ({ mA with attack_executed_by := some "team1", phase := .attackExecuted },
     a1 ++ ["attack_executed:team1"])
  else if ATTACK_THRESHOLD ≤ p2 ∧ mA.attack_executed_by = none then
    ({ mA with attack_executed_by := some "team2", phase := .attackExecuted },
     a1 ++ ["attack_executed:team2"])
  else (mA, a1)

/-- The settlement result dict built by `end_match` (team `rtc_mined` is
captured before the bonus/penalty, `rtc_final` after). -/
structure EndResult where
  duration : ℚ
  winner : Option String
  victory_type : String
  team1_control_percent : ℚ
  team2_control_percent : ℚ
  team1_rtc_mined : ℚ
  team2_rtc_mined : ℚ
  team1_rtc_final : Option ℚ := none
  team2_rtc_final : Option ℚ := none
  player_rewards : List (String × ℚ) := []
deriving DecidableEq, Repr

/-- Per-team payout loop of `end_match`: overwrite each member's
`rtc_earned` with the 50/50 even-split / control-time-weighted share. -/
def distributeTeam (m : Mode) (team_id : String) (team_rtc : ℚ) :
    Mode × List (String × ℚ) :=
  let team_players := m.players.filter (fun e => decide (e.2.team = team_id))
  if team_players = [] then (m, [])
  else
    let n : ℚ := (team_players.length : ℚ)
    let base_share := team_rtc / n
    let total_control_time := (team_players.map (fun e => e.2.control_time)).sum
    let pay := fun (st : PlayerStats) =>
      let control_share :=
        if 0 < total_control_time then st.control_time / total_control_time
        else 1 / n
      base_share * (1/2) + team_rtc * control_share * (1/2)
    ({ m with players := m.players.map (fun e =>
         if e.2.team = team_id then (e.1, { e.2 with rtc_earned := pay e.2 }) else e) },
     team_players.map (fun e => (e.1, pay e.2)))

/-- The winner determination of `end_match`: the attack executor if any,
otherwise the higher control fraction, otherwise a draw. -/
def endWinner (m : Mode) (p1 p2 : ℚ) : Option String :=
  match m.attack_executed_by with
  | some t => some t
  | none => if p2 < p1 then some "team1" else if p1 < p2 then some "team2" else none

/-- The in-place team-total adjustment of `end_match`: the winner's
mined total gains the bonus pool, the loser's is multiplied by
`LOSER_PENALTY`. -/
def applySettlementBonus (m : Mode) (winner : Option String) : Mode :=
  match winner with
  | some w =>
    if w = "team1" then
      { m with
        team1 := { m.team1 with rtc_mined := m.team1.rtc_mined + m.winner_bonus_pool }
        team2 := { m.team2 with rtc_mined := m.team2.rtc_mined * LOSER_PENALTY } }
    else
      { m with
        team2 := { m.team2 with rtc_mined := m.team2.rtc_mined + m.winner_bonus_pool }
        team1 := { m.team1 with rtc_mined := m.team1.rtc_mined * LOSER_PENALTY } }
  | none => m

/-- `end_match` at wall-clock `now`: pick the winner, apply the winner
bonus pool and the loser penalty to the team totals *in place*, then
distribute the adjusted totals to the players.  There is no settled
flag. -/
def endMatch (m : Mode) (now : ℚ) : EndResult × Mode :=
  let match_time := now - m.match_start
  let p1 := controlPercent m "team1" match_time
  let p2 := controlPercent m "team2" match_time
  let winner : Option String := endWinner m p1 p2
  let victory_type :=
    match m.attack_executed_by with
    | some _ => "51% ATTACK"
    | none => if p1 = p2 then "DRAW" else "MAJORITY CONTROL"
  let pre1 := m.team1.rtc_mined
  let pre2 := m.team2.rtc_mined
  let m1 := applySettlementBonus m winner
  let d1 := distributeTeam m1 "team1" m1.team1.rtc_mined
  let d2 := distributeTeam d1.1 "team2" m1.team2.rtc_mined
  ({ duration := match_time
     winner := winner
     victory_type := victory_type
     team1_control_percent := p1
     team2_control_percent := p2
     team1_rtc_mined := pre1
     team2_rtc_mined := pre2
     team1_rtc_final := if winner.isSome then some m1.team1.rtc_mined else none
     team2_rtc_final := if winner.isSome then some m1.team2.rtc_mined else none
     player_rewards := d1.2 ++ d2.2 },
   d2.1)

/-- The value `update(dt)` returns: a normal tick's event/announcement
tags, or the settlement result when the internal duration check fires. -/
inductive UpdateOut where
  | ticked (events announcements : List String)
  | ended (r : EndResult)
deriving DecidableEq, Repr

/-- `update(dt)` at wall-clock `now`: settle via `end_match` as soon as
the elapsed time reaches the configured duration, otherwise run the
occupancy branch, mining block and phase transitions. -/
def update (m : Mode) (dt now : ℚ) : Mode × UpdateOut :=
  let match_time := now - m.match_start
  if m.match_duration ≤ match_time then
    let e := endMatch m now
    (e.2, .ended e.1)
  else
    let pt := pointTick m dt
    let m1 := pt.1
    let m2 :=
      match m1.controlling_team with
      | some ct => mineStep m1 ct dt
      | none => m1
    let p1 := controlPercent m2 "team1" match_time
    let p2 := controlPercent m2 "team2" match_time
    let ph := phaseStep m2 p1 p2
    (ph.1, .ticked pt.2 ph.2)

/-- `on_kill(killer, victim, on_point)`. -/
def onKillMode (m : Mode) (killer victim : String) (on_point : Bool) : Mode :=
  match lookupStats m killer, lookupStats m victim with
  | some ks, some vs =>
    let m1 :=
      if ks.team = "team1" then { m with team1 := { m.team1 with kills := m.team1.kills + 1 } }
      else { m with team2 := { m.team2 with kills := m.team2.kills + 1 } }
    let m2 :=
      if vs.team = "team1" then { m1 with team1 := { m1.team1 with deaths := m1.team1.deaths + 1 } }
      else { m1 with team2 := { m1.team2 with deaths := m1.team2.deaths + 1 } }
    if on_point then
      let vOnPoint := victim ∈ (if vs.team = "team1" then m2.onPoint1 else m2.onPoint2)
      let ks1 := { ks with
        kills_on_point := ks.kills_on_point + 1
        point_defenses := if vOnPoint then ks.point_defenses + 1 else ks.point_defenses }
      setStats m2 killer ks1
    else m2
  | _, _ => m

/-- The driver-visible operations on a `FiftyOneAttackMode`. -/
inductive AOp where
  | start (now : ℚ)
  | add (name team : String)
  | enter (player : String)
  | leave (player : String)
  | tick (dt now : ℚ)
  | kill (killer victim : String) (on_point : Bool)
  | finish (now : ℚ)
deriving Repr

def applyAOp (m : Mode) : AOp → Mode
  | .start now => startMatch m now
  | .add name team => addPlayer m name team
  | .enter p => enterPoint m p
  | .leave p => leavePoint m p
  | .tick dt now => (update m dt now).1
  | .kill k v onp => onKillMode m k v onp
  | .finish now => (endMatch m now).2

def applyAOps (m : Mode) (ops : List AOp) : Mode :=
  ops.foldl applyAOp m

/-- Tick lengths are non-negative and bounded by `D`. -/
def boundedAOp (D : ℚ) : AOp → Prop
  | .tick dt _ => 0 ≤ dt ∧ dt ≤ D
  | _ => True

/-- Control-point invariant, parametrized by the tick bound `D`:
capture progress is non-negative and can overshoot `CAPTURE_TIME` by at
most one tick; whenever no team controls, both progresses are strictly
below `CAPTURE_TIME`; a controlled point keeps the opposing progress
strictly below `CAPTURE_TIME`; and the controlling-team field only ever
holds `none`, `"team1"` or `"team2"`. -/
def progOK (D : ℚ) (m : Mode) : Prop :=
  0 ≤ m.progress1 ∧ m.progress1 ≤ CAPTURE_TIME + D ∧
  0 ≤ m.progress2 ∧ m.progress2 ≤ CAPTURE_TIME + D ∧
  (m.controlling_team = none → m.progress1 < CAPTURE_TIME ∧ m.progress2 < CAPTURE_TIME) ∧
  (m.controlling_team = some "team1" → m.progress2 < CAPTURE_TIME) ∧
  (m.controlling_team = some "team2" → m.progress1 < CAPTURE_TIME) ∧
  (m.controlling_team = none ∨ m.controlling_team = some "team1" ∨
    m.controlling_team = some "team2")

/-- A match state just before its configured end: team1 executed the 51%
attack, with 0.1 RTC mined against team2's 0.2 RTC. -/
def demoMatch : Mode :=
  { team1 := { name := "Validators", rtc_mined := 1/10, control_time := 306 }
    team2 := { name := "Attackers", rtc_mined := 2/10, control_time := 200 }
    attack_executed_by := some "team1" }

/-- Driver script for the capture-overshoot scenario: one team1 player
enters the point and two 2-second ticks elapse. -/
def overshootOps : List AOp :=
  [.add "P" "team1", .enter "P", .tick 2 0, .tick 2 1]

end Attack

end RustChain

-- ======================================================================
-- Lemmas and claim theorems
-- ======================================================================

namespace RustChain
namespace StyleSys
open StyleRank

lemma rankFor_eq (pts : ℤ) : rankFor pts =
    if 2500 ≤ pts then sssSatoshi
    else if 1500 ≤ pts then ssSlashing
    else if 1000 ≤ pts then sStaking
    else if 600 ≤ pts then aAttacking
    else if 300 ≤ pts then bBuilding
    else if 100 ≤ pts then cCalculating
    else dDormant := by
  unfold rankFor ranksDescending
  simp only [List.find?]
  split_ifs with h1 h2 h3 h4 h5 h6
  all_goals try (simp [threshold, *]; done)
  by_cases h0 : (0 : ℤ) ≤ pts <;> simp [threshold, h0, h1, h2, h3, h4, h5, h6]

lemma rankFor_correct (pts : ℤ) (h : 0 ≤ pts) : isHighestRankFor (rankFor pts) pts := by
  rw [rankFor_eq]
  split_ifs with h1 h2 h3 h4 h5 h6 <;>
    refine ⟨by simp [threshold]; omega, fun r' hr' => ?_⟩ <;>
    cases r' <;> simp [threshold, rankValue] at hr' ⊢ <;> omega

lemma styleOK_mkPlayer (n : String) : styleOK (mkPlayer n) := by
  refine ⟨le_refl 0, by simp [mkPlayer, threshold], fun r' hr' => ?_⟩
  cases r' <;> simp [threshold, rankValue, mkPlayer] at hr' ⊢

lemma getPlayer_styleOK {sys : StyleSystem} (h : sysOK sys) (n : String) :
    styleOK (getPlayer sys n) := by
  unfold getPlayer lookupPlayer
  cases hf : sys.players.find? (fun e => decide (e.1 = n)) with
  | none => simpa using styleOK_mkPlayer n
  | some e =>
    have hmem := List.mem_of_find?_eq_some hf
    simpa using h e.1 e.2 (by simpa using hmem)

lemma sysOK_ensure {sys : StyleSystem} (h : sysOK sys) (n : String) :
    sysOK (ensurePlayer sys n) := by
  unfold ensurePlayer
  cases hf : lookupPlayer sys n with
  | some p => exact h
  | none =>
    intro m q hm
    simp only [List.mem_append] at hm
    rcases hm with hm | hm
    · exact h m q hm
    · simp at hm
      obtain ⟨rfl, rfl⟩ := hm
      exact styleOK_mkPlayer _

lemma sysOK_setPlayer {sys : StyleSystem} (h : sysOK sys) {q : PlayerStyle}
    (hq : styleOK q) (n : String) : sysOK (setPlayer sys n q) := by
  intro m p hm
  simp only [setPlayer, List.mem_map] at hm
  obtain ⟨e, he, heq⟩ := hm
  by_cases hc : e.1 = n
  · rw [if_pos hc] at heq
    cases heq
    exact hq
  · rw [if_neg hc] at heq
    subst heq
    exact h m p he

lemma styleOK_addPoints {p : PlayerStyle} (hp : 0 ≤ p.points) {pts : ℤ}
    (hpts : 0 ≤ pts) : styleOK (addPoints p pts).1 := by
  refine ⟨by simp [addPoints]; omega, ?_⟩
  show isHighestRankFor (rankFor (p.points + pts)) (p.points + pts)
  exact rankFor_correct _ (by omega)

lemma styleOK_decay {p : PlayerStyle} (hp : styleOK p) (dt : ℚ) :
    styleOK (decay p dt) := by
  unfold decay
  split_ifs with h
  · exact hp
  · exact ⟨le_max_left 0 _, rankFor_correct _ (le_max_left 0 _)⟩

lemma styleOK_onDeath {p : PlayerStyle} (hp : 0 ≤ p.points) :
    styleOK (onDeath p) := by
  have h2 : 0 ≤ Int.fdiv p.points 2 := Int.fdiv_nonneg hp (by norm_num)
  exact ⟨h2, rankFor_correct _ h2⟩

lemma killBonuses_nonneg (claimed : Bool) (p : PlayerStyle)
    (victim weapon : String) (now : ℚ) :
    0 ≤ (killBonuses claimed p victim weapon now).style_points := by
  unfold killBonuses
  simp only []
  have hcombo : ∀ c ∈ comboDefs, (0 : ℤ) ≤ c.bonus := by decide
  have hc : 0 ≤ (match comboDefs.find? (fun c =>
      decide (c.kills ≤ (p.recent_kills.filter (fun t => decide (now - t < c.window))).length)) with
      | some c => c.bonus | none => 0) := by
    cases hf : comboDefs.find? (fun c =>
        decide (c.kills ≤ (p.recent_kills.filter (fun t => decide (now - t < c.window))).length)) with
    | none => simp
    | some c => simpa using hcombo c (List.mem_of_find?_eq_some hf)
  have hs : 0 ≤ (match streakBonus p.killstreak with | some b => b.2.1 | none => 0) := by
    unfold streakBonus
    split_ifs <;> simp
  split_ifs <;> simp_all [weaponVarietyBonus] <;> omega

lemma sysOK_setVictim {S : StyleSystem} (hS : sysOK S) (killer victim : String) :
    sysOK (setPlayer S victim
      (let v1 := onDeath { getPlayer S victim with last_killer := killer };
       { v1 with deaths := v1.deaths + 1 })) := by
  refine sysOK_setPlayer hS ?_ victim
  have hv := getPlayer_styleOK hS victim
  constructor
  · show 0 ≤ Int.fdiv (getPlayer S victim).points 2
    exact Int.fdiv_nonneg hv.1 (by norm_num)
  · show isHighestRankFor (rankFor _) _
    exact rankFor_correct _ (Int.fdiv_nonneg hv.1 (by norm_num))

lemma sysOK_processKill {sys : StyleSystem} (h : sysOK sys)
    (killer victim weapon : String) (now : ℚ) :
    sysOK (processKill sys killer victim weapon now).1 := by
  have h2 : sysOK (ensurePlayer (ensurePlayer sys killer) victim) :=
    sysOK_ensure (sysOK_ensure h killer) victim
  have hk : styleOK (getPlayer (ensurePlayer (ensurePlayer sys killer) victim) killer) :=
    getPlayer_styleOK h2 killer
  have hfb : sysOK ({ ensurePlayer (ensurePlayer sys killer) victim with
      first_blood_claimed := true } : StyleSystem) := fun n p hm => h2 n p hm
  show sysOK (setPlayer (setPlayer _ killer _) victim _)
  refine sysOK_setVictim (sysOK_setPlayer hfb ?_ killer) killer victim
  constructor
  · show 0 ≤ (getPlayer (ensurePlayer (ensurePlayer sys killer) victim) killer).points
      + (killBonuses _ _ victim weapon now).style_points
    exact add_nonneg hk.1 (killBonuses_nonneg _ _ _ _ _)
  · show isHighestRankFor (rankFor _) _
    exact rankFor_correct _ (add_nonneg hk.1 (killBonuses_nonneg _ _ _ _ _))

lemma getPlayer_ensure (s : StyleSystem) (n m : String) :
    getPlayer (ensurePlayer s n) m = getPlayer s m := by
  unfold ensurePlayer
  cases hf : lookupPlayer s n with
  | some p => rfl
  | none =>
    unfold getPlayer lookupPlayer
    simp only [List.find?_append]
    cases hm : s.players.find? (fun e => decide (e.1 = m)) with
    | some e => simp
    | none =>
      by_cases hnm : n = m
      · subst hnm
        unfold lookupPlayer at hf
        simp only [List.find?]
        simp
      · simp [List.find?, hnm]

lemma sysOK_updateStyle {sys : StyleSystem} (h : sysOK sys) (dt : ℚ) :
    sysOK (updateStyle sys dt) := by
  intro n p hm
  simp only [updateStyle, List.mem_map] at hm
  obtain ⟨e, he, heq⟩ := hm
  cases heq
  exact styleOK_decay (h e.1 e.2 (by simpa using he)) dt

lemma sysOK_applySOps {sys : StyleSystem} (h : sysOK sys) (ops : List SOp) :
    sysOK (applySOps sys ops) := by
  induction ops generalizing sys with
  | nil => exact h
  | cons op rest ih =>
    cases op with
    | kill k v w now => exact ih (sysOK_processKill h k v w now)
    | tick dt => exact ih (sysOK_updateStyle h dt)

/-- C3: after any sequence of kill-processing and decay operations from a
fresh system, every registered player has non-negative points and a rank
equal to the highest configured rank whose threshold is ≤ the player's
current points (death resets happen inside `processKill`). -/
theorem style_rank_invariant (ops : List SOp) (n : String) (p : PlayerStyle)
    (hmem : (n, p) ∈ (applySOps initSystem ops).players) :
    0 ≤ p.points ∧ isHighestRankFor p.rank p.points :=
  sysOK_applySOps (fun _ _ hm => by simp [initSystem] at hm) ops n p hmem

/-- C3 witness: the invariant instantiated at the concrete state reached
by the kill `A` kills `B` at time 0. -/
theorem style_rank_invariant_witness :
    0 ≤ killWitnessPlayer.points ∧
    isHighestRankFor killWitnessPlayer.rank killWitnessPlayer.points :=
  style_rank_invariant [.kill "A" "B" "w" 0] "A" killWitnessPlayer (by
    norm_num +decide [applySOps, applySOp, processKill, killBonuses, getPlayer,
      lookupPlayer, ensurePlayer, initSystem, comboDefs, streakBonus, strHasSub,
      listHasSub, listStartsWith, weaponVarietyBonus, List.find?, List.filter,
      addPoints, rankFor, ranksDescending, threshold, multiplier, mkPlayer,
      setPlayer, onDeath, killWitnessPlayer])

/-- C4: `process_kill` recomputes the killer's rank from the new point
total before applying the multiplier, so the reward is
(base + bonus) x the new rank's multiplier; in particular a killer at 700
points gaining 150 points (total 850, below the Staking threshold 1000)
is paid at the Attacking multiplier x2.0. -/
theorem kill_reward_uses_new_rank :
    (∀ sys killer victim weapon now,
      ((processKill sys killer victim weapon now).2.total_rtc
        = ((processKill sys killer victim weapon now).2.base_rtc
           + (processKill sys killer victim weapon now).2.bonus_rtc)
          * multiplier (processKill sys killer victim weapon now).2.rank_after) ∧
      (processKill sys killer victim weapon now).2.rank_after
        = rankFor ((getPlayer sys killer).points
            + (processKill sys killer victim weapon now).2.style_points)) ∧
    ((processKill sys700 "K" "V" "rocket" 100).2.style_points = 150 ∧
     (processKill sys700 "K" "V" "rocket" 100).2.rank_after = aAttacking ∧
     (processKill sys700 "K" "V" "rocket" 100).2.multiplier = 2 ∧
     (processKill sys700 "K" "V" "rocket" 100).2.total_rtc
       = ((processKill sys700 "K" "V" "rocket" 100).2.base_rtc
          + (processKill sys700 "K" "V" "rocket" 100).2.bonus_rtc) * 2) := by
  constructor
  · intro sys killer victim weapon now
    constructor
    · rfl
    · have e1 : (getPlayer (ensurePlayer (ensurePlayer sys killer) victim) killer).points
          = (getPlayer sys killer).points := by
        rw [getPlayer_ensure, getPlayer_ensure]
      show rankFor ((getPlayer (ensurePlayer (ensurePlayer sys killer) victim) killer).points
          + (processKill sys killer victim weapon now).2.style_points)
        = rankFor ((getPlayer sys killer).points
          + (processKill sys killer victim weapon now).2.style_points)
      rw [e1]
  · norm_num +decide [processKill, killBonuses, getPlayer, lookupPlayer, ensurePlayer, sys700,
      comboDefs, streakBonus, strHasSub, listHasSub, listStartsWith, weaponVarietyBonus,
      List.find?, List.filter, addPoints, rankFor, ranksDescending, threshold, multiplier,
      mkPlayer, setPlayer]

/-- C5 counterexample: calling `process_kill` itself with
killer = victim = "A" on a fresh system is not a no-op: the player ends
with 1 death, 150 points and 0.009 RTC, whereas a fresh player has 0 of
each.  The killer = victim guard lives only in the log-parsing driver. -/
theorem self_kill_mutates :
    (getPlayer (processKill initSystem "A" "A" "w" 0).1 "A").deaths = 1 ∧
    (getPlayer (processKill initSystem "A" "A" "w" 0).1 "A").points = 150 ∧
    (getPlayer (processKill initSystem "A" "A" "w" 0).1 "A").total_rtc = 9/1000 ∧
    (getPlayer initSystem "A").deaths = 0 ∧
    (getPlayer initSystem "A").points = 0 ∧
    (getPlayer initSystem "A").total_rtc = 0 := by
  norm_num +decide [processKill, killBonuses, getPlayer, lookupPlayer, ensurePlayer,
    initSystem, comboDefs, streakBonus, strHasSub, listHasSub, listStartsWith,
    weaponVarietyBonus, List.find?, List.filter, addPoints, rankFor, ranksDescending,
    threshold, multiplier, mkPlayer, setPlayer, onDeath]

/-- C5 amended: the `main()` dispatch guard drops a parsed kill line
whose killer equals its victim, leaving the system untouched and
emitting no result. -/
theorem dispatch_self_kill_noop (sys : StyleSystem) (player weapon : String) (now : ℚ) :
    dispatchKill sys player player weapon now = (sys, none) := by
  simp [dispatchKill]

/-- C9 counterexample: a player at 150 points, rank `C_CALCULATING`
(decay rate 10), decayed with dt = 1/20, keeps exactly 150 points: the
code subtracts `int(10 * 0.05) = 0`, not the exact 0.5 the claim
demands. -/
theorem decay_not_exact :
    (decay p150 (1/20)).points = 150 ∧
    ((decay p150 (1/20)).points : ℚ)
      ≠ max 0 ((p150.points : ℚ) - (decayRate p150.rank : ℚ) * (1/20)) := by
  constructor
  · norm_num [decay, p150, decayRate, truncQ, rankFor, ranksDescending, threshold]
  · norm_num [decay, p150, decayRate, truncQ, rankFor, ranksDescending, threshold]

/-- C9 amended: `decay` leaves `D_DORMANT` players unchanged; above
`D_DORMANT` it subtracts `int(decay_rate * dt)` (truncated toward zero),
floors at 0, and rescans the rank from the result. -/
theorem decay_truncated (p : PlayerStyle) (dt : ℚ) :
    (p.rank = dDormant → decay p dt = p) ∧
    (p.rank ≠ dDormant →
      (decay p dt).points = max 0 (p.points - truncQ ((decayRate p.rank : ℚ) * dt)) ∧
      (decay p dt).rank
        = rankFor (max 0 (p.points - truncQ ((decayRate p.rank : ℚ) * dt)))) := by
  constructor
  · intro h; simp [decay, h]
  · intro h; simp [decay, h]

/-- C9 witness: the amended decay law at a dormant player and at a
`C_CALCULATING` player with dt = 1/2. -/
theorem decay_truncated_witness :
    decay pDormant 1 = pDormant ∧
    ((decay p150 (1/2)).points
      = max 0 (p150.points - truncQ ((decayRate p150.rank : ℚ) * (1/2)))) :=
  ⟨(decay_truncated pDormant 1).1 rfl, ((decay_truncated p150 (1/2)).2 (by decide)).1⟩

end StyleSys
end RustChain

namespace RustChain
namespace Blood

lemma distanceMult_pos (d : ℚ) : 0 < distanceMult d := by
  unfold distanceMult CLOSE_RANGE_MULTIPLIER CLOSE_RANGE MID_RANGE LONG_RANGE
  split_ifs with h1 h2
  · norm_num
  · have ht : (d - 300) / (800 - 300) ≤ 1 := by
      rw [div_le_one (by norm_num)]
      linarith
    have ht0 : 0 ≤ (d - 300) / (800 - 300) := by
      apply div_nonneg <;> linarith [not_le.mp h1]
    nlinarith
  · have hmin : min 1 ((d - 800) / (1500 - 800)) ≤ 1 := min_le_left _ _
    nlinarith

lemma weaponRangeBonus_pos (w : DamageType) : 0 < weaponRangeBonus w := by
  cases w <;> norm_num [weaponRangeBonus]

lemma shieldOK_mkBloodState (now : ℚ) : shieldOK (mkBloodState now) := by
  constructor <;> norm_num [mkBloodState, SHIELD_MAX]

lemma getBlood_shieldOK {econ : BloodEconomy} (h : econOK econ) (n : String) (now : ℚ) :
    shieldOK (getBlood econ n now) := by
  unfold getBlood lookupBlood
  cases hf : econ.players.find? (fun e => decide (e.1 = n)) with
  | none => simpa using shieldOK_mkBloodState now
  | some e =>
    have hmem := List.mem_of_find?_eq_some hf
    simpa using h e.1 e.2 (by simpa using hmem)

lemma econOK_ensure {econ : BloodEconomy} (h : econOK econ) (n : String) (now : ℚ) :
    econOK (ensureBlood econ n now) := by
  unfold ensureBlood
  cases hf : lookupBlood econ n with
  | some p => exact h
  | none =>
    intro m q hm
    simp only [List.mem_append] at hm
    rcases hm with hm | hm
    · exact h m q hm
    · simp at hm
      obtain ⟨rfl, rfl⟩ := hm
      exact shieldOK_mkBloodState _

lemma econOK_set {econ : BloodEconomy} (h : econOK econ) {q : BloodState}
    (hq : shieldOK q) (n : String) : econOK (setBlood econ n q) := by
  intro m p hm
  simp only [setBlood, List.mem_map] at hm
  obtain ⟨e, he, heq⟩ := hm
  by_cases hc : e.1 = n
  · rw [if_pos hc] at heq
    cases heq
    exact hq
  · rw [if_neg hc] at heq
    subst heq
    exact h m p he

lemma getBlood_ensure (econ : BloodEconomy) (n m : String) (now now' : ℚ) :
    getBlood (ensureBlood econ n now) m now' =
      if lookupBlood econ m = none ∧ m = n then mkBloodState now else getBlood econ m now' := by
  unfold ensureBlood
  cases hf : lookupBlood econ n with
  | some p =>
    unfold getBlood
    by_cases hm : lookupBlood econ m = none
    · by_cases hmn : m = n
      · subst hmn
        rw [hm] at hf
        cases hf
      · simp [hm, hmn]
    · simp [hm]
  | none =>
    unfold getBlood lookupBlood
    simp only [List.find?_append]
    cases hm : econ.players.find? (fun e => decide (e.1 = m)) with
    | some e => simp [lookupBlood, hm]
    | none =>
      by_cases hmn : m = n
      · subst hmn
        simp [lookupBlood, hm, List.find?]
      · have hnm : ¬ n = m := fun h => hmn h.symm
        simp [lookupBlood, hm, List.find?, hnm, hmn]

lemma econOK_onDamageDealt {econ : BloodEconomy} (h : econOK econ)
    (a v : String) {damage : ℚ} (hd : 0 ≤ damage) (w : DamageType)
    (dist : ℚ) (hs : Bool) (now : ℚ) :
    econOK (onDamageDealt econ a v damage w dist hs now).1 := by
  have h1 : econOK (ensureBlood econ a now) := econOK_ensure h a now
  have hst := getBlood_shieldOK h1 a now
  have hgain : 0 ≤ (if hs then
      damage * DAMAGE_TO_SHIELD_RATIO * distanceMult dist * weaponRangeBonus w + HEADSHOT_BONUS
    else damage * DAMAGE_TO_SHIELD_RATIO * distanceMult dist * weaponRangeBonus w) := by
    have : 0 ≤ damage * DAMAGE_TO_SHIELD_RATIO * distanceMult dist * weaponRangeBonus w := by
      have := distanceMult_pos dist
      have := weaponRangeBonus_pos w
      have : (0:ℚ) ≤ damage * DAMAGE_TO_SHIELD_RATIO := by
        unfold DAMAGE_TO_SHIELD_RATIO
        positivity
      positivity
    split_ifs
    · unfold HEADSHOT_BONUS
      linarith
    · exact this
  show econOK { setBlood _ a _ with
      total_shield_generated := _
      most_aggressive := _
      most_aggressive_shield := _ }
  intro n p hm
  refine econOK_set h1 ?_ a n p hm
  constructor
  · show 0 ≤ min SHIELD_MAX ((getBlood (ensureBlood econ a now) a now).shield + _)
    have h100 : (0:ℚ) ≤ SHIELD_MAX := by norm_num [SHIELD_MAX]
    exact le_min h100 (add_nonneg hst.1 hgain)
  · show min SHIELD_MAX ((getBlood (ensureBlood econ a now) a now).shield + _) ≤ SHIELD_MAX
    exact min_le_left _ _

lemma econOK_onKill {econ : BloodEconomy} (h : econOK econ)
    (k v : String) (w : DamageType) (dist now : ℚ) :
    econOK (onKillBlood econ k v w dist now).1 := by
  have h1 : econOK (ensureBlood econ k now) := econOK_ensure h k now
  have hst := getBlood_shieldOK h1 k now
  have hgain : 0 ≤ KILL_SHIELD_BONUS
      + (if w = DamageType.melee then MELEE_KILL_SHIELD else 0)
      + (if dist ≤ CLOSE_RANGE then (15:ℚ) else 0)
      + (if 3 ≤ (getBlood (ensureBlood econ k now) k now).kills_without_damage then
          10 * ((getBlood (ensureBlood econ k now) k now).kills_without_damage : ℚ) else 0) := by
    have h20 : (0:ℚ) ≤ KILL_SHIELD_BONUS := by norm_num [KILL_SHIELD_BONUS]
    have h50 : (0:ℚ) ≤ (if w = DamageType.melee then MELEE_KILL_SHIELD else 0) := by
      split_ifs <;> norm_num [MELEE_KILL_SHIELD]
    have h15 : (0:ℚ) ≤ (if dist ≤ CLOSE_RANGE then (15:ℚ) else 0) := by
      split_ifs <;> norm_num
    have h10 : (0:ℚ) ≤ (if 3 ≤ (getBlood (ensureBlood econ k now) k now).kills_without_damage then
        10 * ((getBlood (ensureBlood econ k now) k now).kills_without_damage : ℚ) else 0) := by
      split_ifs <;> positivity
    linarith
  intro n p hm
  refine econOK_set h1 ?_ k n p hm
  constructor
  · show 0 ≤ min SHIELD_MAX ((getBlood (ensureBlood econ k now) k now).shield + _)
    have h100 : (0:ℚ) ≤ SHIELD_MAX := by norm_num [SHIELD_MAX]
    exact le_min h100 (add_nonneg hst.1 hgain)
  · show min SHIELD_MAX ((getBlood (ensureBlood econ k now) k now).shield + _) ≤ SHIELD_MAX
    exact min_le_left _ _

lemma econOK_onDamageTaken {econ : BloodEconomy} (h : econOK econ)
    (p : String) (damage : ℚ) (a : String) (now : ℚ) :
    econOK (onDamageTaken econ p damage a now).1 := by
  have h1 : econOK (ensureBlood econ p now) := econOK_ensure h p now
  have hst := getBlood_shieldOK h1 p now
  intro n q hm
  refine econOK_set h1 ?_ p n q hm
  exact ⟨hst.1, hst.2⟩

lemma econOK_onDeath {econ : BloodEconomy} (h : econOK econ)
    (p : String) (now : ℚ) :
    econOK (onDeathBlood econ p now).1 := by
  have h1 : econOK (ensureBlood econ p now) := econOK_ensure h p now
  intro n q hm
  refine econOK_set h1 ⟨le_refl 0, by norm_num [SHIELD_MAX]⟩ p n q hm

lemma shieldOK_updateOne {st : BloodState} (hst : shieldOK st) {dt : ℚ}
    (hdt : 0 ≤ dt) (now : ℚ) : shieldOK (updateOne st dt now).1 := by
  have hrate : 0 ≤ SHIELD_DECAY_RATE * dt := by
    unfold SHIELD_DECAY_RATE
    positivity
  have hmax1 : 0 ≤ max 0 (st.shield - SHIELD_DECAY_RATE * dt) := le_max_left 0 _
  have hmax2 : max 0 (st.shield - SHIELD_DECAY_RATE * dt) ≤ SHIELD_MAX :=
    max_le (by norm_num [SHIELD_MAX]) (by linarith [hst.2])
  simp only [updateOne]
  split_ifs <;>
    exact ⟨by first | exact hmax1 | exact hst.1, by first | exact hmax2 | exact hst.2⟩

lemma econOK_update {econ : BloodEconomy} (h : econOK econ) {dt : ℚ}
    (hdt : 0 ≤ dt) (now : ℚ) : econOK (updateBlood econ dt now) := by
  intro n p hm
  simp only [updateBlood, List.map_map, List.mem_map] at hm
  obtain ⟨e, he, heq⟩ := hm
  cases heq
  exact shieldOK_updateOne (h e.1 e.2 (by simpa using he)) hdt now

lemma econOK_applyBOps {econ : BloodEconomy} (h : econOK econ) (ops : List BOp)
    (hops : ∀ op ∈ ops, validBOp op) : econOK (applyBOps econ ops) := by
  induction ops generalizing econ with
  | nil => exact h
  | cons op rest ih =>
    have hop := hops op (by simp)
    have hrest : ∀ op ∈ rest, validBOp op := fun o ho => hops o (by simp [ho])
    cases op with
    | damageDealt a v dmg w dist hs now =>
      exact ih (econOK_onDamageDealt h a v (by exact hop) w dist hs now) hrest
    | killEvent k v w dist now => exact ih (econOK_onKill h k v w dist now) hrest
    | damageTaken p dmg a now => exact ih (econOK_onDamageTaken h p dmg a now) hrest
    | death p now => exact ih (econOK_onDeath h p now) hrest
    | tick dt now => exact ih (econOK_update h (by exact hop) now) hrest

/-- C2 amended: for event sequences whose damage-dealt amounts and tick
lengths are non-negative, every player's shield stays within
[0, SHIELD_MAX]. -/
theorem shield_in_range (now0 : ℚ) (ops : List BOp)
    (hops : ∀ op ∈ ops, validBOp op) (n : String) (st : BloodState)
    (hmem : (n, st) ∈ (applyBOps (initBlood now0) ops).players) :
    0 ≤ st.shield ∧ st.shield ≤ SHIELD_MAX :=
  econOK_applyBOps (fun _ _ hm => by simp [initBlood] at hm) ops hops n st hmem

/-- C2 witness: the bound instantiated at the spec's clamping scenario
(60 damage, melee, distance 100: gain 108 clamped to 100). -/
theorem shield_in_range_witness :
    0 ≤ bloodWitnessState.shield ∧ bloodWitnessState.shield ≤ SHIELD_MAX :=
  shield_in_range 0 [.damageDealt "A" "V" 60 .melee 100 false 0]
    (by
      intro op hop
      simp at hop
      subst hop
      norm_num [validBOp])
    "A" bloodWitnessState
    (by
      norm_num +decide [applyBOps, applyBOp, onDamageDealt, ensureBlood, getBlood,
        lookupBlood, setBlood, initBlood, mkBloodState, distanceMult, pushHit,
        weaponRangeBonus, DAMAGE_TO_SHIELD_RATIO, CLOSE_RANGE, CLOSE_RANGE_MULTIPLIER,
        MID_RANGE, LONG_RANGE, SHIELD_MAX, HEADSHOT_BONUS, List.find?,
        bloodWitnessState, getBonuses])

/-- C2 counterexample: a single damage-dealt event with damage -100 at
close range drives the attacker's shield to -45, outside [0, 100]: the
code never clamps negative damage. -/
theorem shield_can_go_negative :
    shieldOf (applyBOps (initBlood 0)
      [.damageDealt "A" "V" (-100) .machinegun 100 false 0]) "A" = -45 ∧
    ¬ (0 ≤ shieldOf (applyBOps (initBlood 0)
      [.damageDealt "A" "V" (-100) .machinegun 100 false 0]) "A") := by
  constructor <;>
    norm_num +decide [shieldOf, applyBOps, applyBOp, onDamageDealt, ensureBlood, getBlood,
      lookupBlood, setBlood, initBlood, mkBloodState, distanceMult, pushHit,
      weaponRangeBonus, DAMAGE_TO_SHIELD_RATIO, CLOSE_RANGE, CLOSE_RANGE_MULTIPLIER,
      MID_RANGE, LONG_RANGE, SHIELD_MAX, HEADSHOT_BONUS, List.find?, getBonuses]

/-- C6 counterexample: a damage-dealt event with damage -40 is not
treated as zero: it yields shield gain -18 and decreases the attacker's
shield from 0 to -18. -/
theorem negative_damage_not_clamped :
    ((onDamageDealt (initBlood 0) "B" "V" (-40) .machinegun 250 false 0).2).shield_gained
      = -18 ∧
    ((onDamageDealt (initBlood 0) "B" "V" (-40) .machinegun 250 false 0).2).shield_current
      = -18 ∧
    shieldOf (initBlood 0) "B" = 0 ∧ (-18 : ℚ) < 0 := by
  refine ⟨?_, ?_, ?_, by norm_num⟩ <;>
    norm_num +decide [shieldOf, onDamageDealt, ensureBlood, getBlood,
      lookupBlood, setBlood, initBlood, mkBloodState, distanceMult, pushHit,
      weaponRangeBonus, DAMAGE_TO_SHIELD_RATIO, CLOSE_RANGE, CLOSE_RANGE_MULTIPLIER,
      MID_RANGE, LONG_RANGE, SHIELD_MAX, HEADSHOT_BONUS, List.find?, getBonuses]

lemma getBlood_ensure_self (econ : BloodEconomy) (a : String) (now : ℚ) :
    getBlood (ensureBlood econ a now) a now = getBlood econ a now := by
  rw [getBlood_ensure]
  split_ifs with h
  · unfold getBlood
    rw [h.1]
    rfl
  · rfl

/-- C6 amended: a negative distance falls into the close-range branch
(the same multiplier as distance zero), but a negative damage amount is
used as-is: with a positive distance and weapon multiplier the shield
gain is negative and the attacker's shield strictly decreases. -/
theorem negative_inputs_behavior :
    (∀ d : ℚ, d < 0 → distanceMult d = distanceMult 0) ∧
    (∀ (econ : BloodEconomy) (a v : String) (damage : ℚ) (w : DamageType)
        (dist now : ℚ),
      damage < 0 → (getBlood econ a now).shield ≤ SHIELD_MAX →
      ((onDamageDealt econ a v damage w dist false now).2).shield_current
        < (getBlood econ a now).shield) := by
  constructor
  · intro d hd
    unfold distanceMult CLOSE_RANGE
    rw [if_pos (by linarith), if_pos (by norm_num)]
  · intro econ a v damage w dist now hdmg hsh
    have hd := distanceMult_pos dist
    have hw := weaponRangeBonus_pos w
    have h1 : damage * DAMAGE_TO_SHIELD_RATIO < 0 := by
      unfold DAMAGE_TO_SHIELD_RATIO
      exact mul_neg_of_neg_of_pos hdmg (by norm_num)
    have h2 : damage * DAMAGE_TO_SHIELD_RATIO * distanceMult dist < 0 :=
      mul_neg_of_neg_of_pos h1 hd
    have h3 : damage * DAMAGE_TO_SHIELD_RATIO * distanceMult dist * weaponRangeBonus w < 0 :=
      mul_neg_of_neg_of_pos h2 hw
    show min SHIELD_MAX ((getBlood (ensureBlood econ a now) a now).shield
        + damage * DAMAGE_TO_SHIELD_RATIO * distanceMult dist * weaponRangeBonus w)
      < (getBlood econ a now).shield
    rw [getBlood_ensure_self]
    exact lt_of_le_of_lt (min_le_right _ _) (by linarith)

/-- C6 witness: the amended behavior at distance -5 and at a concrete
-40-damage event on a fresh economy. -/
theorem negative_inputs_behavior_witness :
    (distanceMult (-5) = distanceMult 0) ∧
    ((onDamageDealt (initBlood 0) "A" "V" (-40) .machinegun 250 false 0).2).shield_current
      < (getBlood (initBlood 0) "A" 0).shield :=
  ⟨negative_inputs_behavior.1 (-5) (by norm_num),
   negative_inputs_behavior.2 (initBlood 0) "A" "V" (-40) .machinegun 250 0
     (by norm_num)
     (by norm_num [getBlood, lookupBlood, initBlood, mkBloodState, SHIELD_MAX, List.find?])⟩

/-- C10: `on_damage_taken` zeroes the untouchable streak before the
report field reads it, so `untouchable_lost` is always `False`. -/
theorem untouchable_lost_false (econ : BloodEconomy) (p : String) (damage : ℚ)
    (a : String) (now : ℚ) :
    ((onDamageTaken econ p damage a now).2).untouchable_lost = false := rfl

end Blood
end RustChain

namespace RustChain
namespace Attack

lemma progOK_congr {D : ℚ} {m m' : Mode} (h1 : m'.progress1 = m.progress1)
    (h2 : m'.progress2 = m.progress2)
    (h3 : m'.controlling_team = m.controlling_team) (h : progOK D m) :
    progOK D m' := by
  unfold progOK at h ⊢
  rw [h1, h2, h3]
  exact h

lemma mineStep_fields (m : Mode) (ct : String) (dt : ℚ) :
    (mineStep m ct dt).progress1 = m.progress1 ∧
    (mineStep m ct dt).progress2 = m.progress2 ∧
    (mineStep m ct dt).controlling_team = m.controlling_team := by
  simp only [mineStep]
  split_ifs <;> exact ⟨rfl, rfl, rfl⟩

lemma phaseStep_fields (m : Mode) (p1 p2 : ℚ) :
    (phaseStep m p1 p2).1.progress1 = m.progress1 ∧
    (phaseStep m p1 p2).1.progress2 = m.progress2 ∧
    (phaseStep m p1 p2).1.controlling_team = m.controlling_team := by
  simp only [phaseStep]
  split_ifs <;> exact ⟨rfl, rfl, rfl⟩

lemma distributeTeam_fields (m : Mode) (tid : String) (rtc : ℚ) :
    (distributeTeam m tid rtc).1.progress1 = m.progress1 ∧
    (distributeTeam m tid rtc).1.progress2 = m.progress2 ∧
    (distributeTeam m tid rtc).1.controlling_team = m.controlling_team := by
  simp only [distributeTeam]
  split_ifs <;> exact ⟨rfl, rfl, rfl⟩

lemma applySettlementBonus_fields (m : Mode) (w : Option String) :
    (applySettlementBonus m w).progress1 = m.progress1 ∧
    (applySettlementBonus m w).progress2 = m.progress2 ∧
    (applySettlementBonus m w).controlling_team = m.controlling_team := by
  cases w with
  | none => exact ⟨rfl, rfl, rfl⟩
  | some t =>
    simp only [applySettlementBonus]
    split_ifs <;> exact ⟨rfl, rfl, rfl⟩

lemma endMatch_fields (m : Mode) (now : ℚ) :
    (endMatch m now).2.progress1 = m.progress1 ∧
    (endMatch m now).2.progress2 = m.progress2 ∧
    (endMatch m now).2.controlling_team = m.controlling_team := by
  have key : (endMatch m now).2 =
      (distributeTeam
        (distributeTeam
          (applySettlementBonus m
            (endWinner m (controlPercent m "team1" (now - m.match_start))
              (controlPercent m "team2" (now - m.match_start))))
          "team1"
          (applySettlementBonus m
            (endWinner m (controlPercent m "team1" (now - m.match_start))
              (controlPercent m "team2" (now - m.match_start)))).team1.rtc_mined).1
        "team2"
        (applySettlementBonus m
          (endWinner m (controlPercent m "team1" (now - m.match_start))
            (controlPercent m "team2" (now - m.match_start)))).team2.rtc_mined).1 := rfl
  rw [key]
  refine ⟨?_, ?_, ?_⟩
  · rw [(distributeTeam_fields _ _ _).1, (distributeTeam_fields _ _ _).1,
      (applySettlementBonus_fields _ _).1]
  · rw [(distributeTeam_fields _ _ _).2.1, (distributeTeam_fields _ _ _).2.1,
      (applySettlementBonus_fields _ _).2.1]
  · rw [(distributeTeam_fields _ _ _).2.2, (distributeTeam_fields _ _ _).2.2,
      (applySettlementBonus_fields _ _).2.2]

lemma progOK_processCapture1 {D : ℚ} {m : Mode} (h : progOK D m) (hD : 0 ≤ D)
    {dt : ℚ} (hdt : 0 ≤ dt) (hdtD : dt ≤ D) :
    progOK D (processCapture m "team1" dt) := by
  obtain ⟨hp1, hp1D, hp2, hp2D, hnone, ht1, ht2, hmem⟩ := h
  have hC : (0:ℚ) < CAPTURE_TIME := by norm_num [CAPTURE_TIME]
  simp only [processCapture]
  norm_num +decide
  split_ifs with hc1 hc2 hz hcap <;> unfold progOK <;> (try dsimp only)
  · exact ⟨hp1, hp1D, hp2, hp2D, hnone, ht1, ht2, hmem⟩
  · -- team2 controls and is neutralized to zero
    refine ⟨hp1, hp1D, le_refl 0, by linarith, ?_, ?_, ?_, Or.inl rfl⟩
    · intro _
      exact ⟨ht2 hc2, hC⟩
    · intro hcontra
      simp at hcontra
    · intro hcontra
      simp at hcontra
  · -- team2 controls, its progress is decremented but stays positive
    refine ⟨hp1, hp1D, by linarith [not_le.mp hz], by linarith, ?_, ?_, ?_, hmem⟩
    · intro hcontra
      rw [hc2] at hcontra
      simp at hcontra
    · intro hcontra
      rw [hc2] at hcontra
      simp at hcontra
    · intro _
      exact ht2 hc2
  · -- point neutral, capture completes (possible overshoot)
    have hn : m.controlling_team = none := by
      rcases hmem with hmem | hmem | hmem
      · exact hmem
      · exact absurd hmem hc1
      · exact absurd hmem hc2
    refine ⟨by linarith, by linarith [(hnone hn).1], hp2, hp2D, ?_, ?_, ?_,
      Or.inr (Or.inl rfl)⟩
    · intro hcontra
      simp at hcontra
    · intro _
      exact (hnone hn).2
    · intro hcontra
      simp at hcontra
  · -- point neutral, capture still in progress
    have hn : m.controlling_team = none := by
      rcases hmem with hmem | hmem | hmem
      · exact hmem
      · exact absurd hmem hc1
      · exact absurd hmem hc2
    refine ⟨by linarith, by linarith [not_le.mp hcap], hp2, hp2D, ?_, ?_, ?_, hmem⟩
    · intro _
      exact ⟨not_le.mp hcap, (hnone hn).2⟩
    · intro hcontra
      rw [hn] at hcontra
      simp at hcontra
    · intro hcontra
      rw [hn] at hcontra
      simp at hcontra

lemma progOK_processCapture2 {D : ℚ} {m : Mode} (h : progOK D m) (hD : 0 ≤ D)
    {dt : ℚ} (hdt : 0 ≤ dt) (hdtD : dt ≤ D) :
    progOK D (processCapture m "team2" dt) := by
  obtain ⟨hp1, hp1D, hp2, hp2D, hnone, ht1, ht2, hmem⟩ := h
  have hC : (0:ℚ) < CAPTURE_TIME := by norm_num [CAPTURE_TIME]
  simp only [processCapture]
  norm_num +decide
  split_ifs with hc1 hc2 hz hcap <;> unfold progOK <;> (try dsimp only)
  · exact ⟨hp1, hp1D, hp2, hp2D, hnone, ht1, ht2, hmem⟩
  · -- team1 controls and is neutralized to zero
    refine ⟨le_refl 0, by linarith, hp2, hp2D, ?_, ?_, ?_, Or.inl rfl⟩
    · intro _
      exact ⟨hC, ht1 hc2⟩
    · intro hcontra
      simp at hcontra
    · intro hcontra
      simp at hcontra
  · -- team1 controls, its progress is decremented but stays positive
    refine ⟨by linarith [not_le.mp hz], by linarith, hp2, hp2D, ?_, ?_, ?_, hmem⟩
    · intro hcontra
      rw [hc2] at hcontra
      simp at hcontra
    · intro _
      exact ht1 hc2
    · intro hcontra
      rw [hc2] at hcontra
      simp at hcontra
  · -- point neutral, capture completes (possible overshoot)
    have hn : m.controlling_team = none := by
      rcases hmem with hmem | hmem | hmem
      · exact hmem
      · exact absurd hmem hc2
      · exact absurd hmem hc1
    refine ⟨hp1, hp1D, by linarith, by linarith [(hnone hn).2], ?_, ?_, ?_,
      Or.inr (Or.inr rfl)⟩
    · intro hcontra
      simp at hcontra
    · intro hcontra
      simp at hcontra
    · intro _
      exact (hnone hn).1
  · -- point neutral, capture still in progress
    have hn : m.controlling_team = none := by
      rcases hmem with hmem | hmem | hmem
      · exact hmem
      · exact absurd hmem hc2
      · exact absurd hmem hc1
    refine ⟨hp1, hp1D, by linarith, ?_, ?_, ?_, ?_, hmem⟩
    · have := not_le.mp hcap
      linarith
    · intro _
      exact ⟨(hnone hn).1, not_le.mp hcap⟩
    · intro hcontra
      rw [hn] at hcontra
      simp at hcontra
    · intro hcontra
      rw [hn] at hcontra
      simp at hcontra

lemma progOK_pointTick {D : ℚ} {m : Mode} (h : progOK D m) (hD : 0 ≤ D)
    {dt : ℚ} (hdt : 0 ≤ dt) (hdtD : dt ≤ D) :
    progOK D (pointTick m dt).1 := by
  simp only [pointTick]
  split_ifs with hb h1 h2 hneu
  · -- contested: both progresses decay
    obtain ⟨hp1, hp1D, hp2, hp2D, hnone, ht1, ht2, hmem⟩ := h
    unfold progOK
    dsimp only
    have k1 : max 0 (m.progress1 - dt * (1/2)) ≤ m.progress1 :=
      max_le (by linarith) (by linarith)
    have k2 : max 0 (m.progress2 - dt * (1/2)) ≤ m.progress2 :=
      max_le (by linarith) (by linarith)
    refine ⟨le_max_left 0 _, by linarith, le_max_left 0 _, by linarith, ?_, ?_, ?_, hmem⟩
    · intro hn
      exact ⟨lt_of_le_of_lt k1 (hnone hn).1, lt_of_le_of_lt k2 (hnone hn).2⟩
    · intro hc
      exact lt_of_le_of_lt k2 (ht1 hc)
    · intro hc
      exact lt_of_le_of_lt k1 (ht2 hc)
  · exact progOK_processCapture1 h hD hdt hdtD
  · exact progOK_processCapture2 h hD hdt hdtD
  · -- vacant point, decayed to zero and neutralized
    obtain ⟨hp1, hp1D, hp2, hp2D, hnone, ht1, ht2, hmem⟩ := h
    unfold progOK
    dsimp only
    obtain ⟨hz1, hz2, _⟩ := hneu
    have hC : (0:ℚ) < CAPTURE_TIME := by norm_num [CAPTURE_TIME]
    refine ⟨?_, ?_, ?_, ?_, ?_, ?_, ?_, Or.inl rfl⟩ <;>
      simp only [hz1, hz2]
    · exact le_refl 0
    · linarith
    · exact le_refl 0
    · linarith
    · intro _
      exact ⟨hC, hC⟩
    · intro hcontra
      simp at hcontra
    · intro hcontra
      simp at hcontra
  · -- vacant point, plain decay
    obtain ⟨hp1, hp1D, hp2, hp2D, hnone, ht1, ht2, hmem⟩ := h
    unfold progOK
    dsimp only
    have k1 : max 0 (m.progress1 - dt * (3/10)) ≤ m.progress1 :=
      max_le (by linarith) (by linarith)
    have k2 : max 0 (m.progress2 - dt * (3/10)) ≤ m.progress2 :=
      max_le (by linarith) (by linarith)
    refine ⟨le_max_left 0 _, by linarith, le_max_left 0 _, by linarith, ?_, ?_, ?_, hmem⟩
    · intro hn
      exact ⟨lt_of_le_of_lt k1 (hnone hn).1, lt_of_le_of_lt k2 (hnone hn).2⟩
    · intro hc
      exact lt_of_le_of_lt k2 (ht1 hc)
    · intro hc
      exact lt_of_le_of_lt k1 (ht2 hc)

lemma progOK_update {D : ℚ} {m : Mode} (h : progOK D m) (hD : 0 ≤ D)
    {dt : ℚ} (hdt : 0 ≤ dt) (hdtD : dt ≤ D) (now : ℚ) :
    progOK D (update m dt now).1 := by
  simp only [update]
  split_ifs with hend
  · obtain ⟨e1, e2, e3⟩ := endMatch_fields m now
    exact progOK_congr e1 e2 e3 h
  · have hpt := progOK_pointTick h hD hdt hdtD
    cases hctl : (pointTick m dt).1.controlling_team with
    | none =>
      simp only [hctl]
      obtain ⟨e1, e2, e3⟩ := phaseStep_fields (pointTick m dt).1 _ _
      exact progOK_congr e1 e2 e3 hpt
    | some ct =>
      simp only [hctl]
      obtain ⟨f1, f2, f3⟩ := mineStep_fields (pointTick m dt).1 ct dt
      obtain ⟨e1, e2, e3⟩ := phaseStep_fields (mineStep (pointTick m dt).1 ct dt) _ _
      exact progOK_congr (e1.trans f1) (e2.trans f2) (e3.trans f3) hpt

lemma progOK_startMatch {D : ℚ} (hD : 0 ≤ D) (m : Mode) (now : ℚ) :
    progOK D (startMatch m now) := by
  unfold progOK startMatch
  refine ⟨le_refl 0, by norm_num [CAPTURE_TIME]; linarith, le_refl 0,
    by norm_num [CAPTURE_TIME]; linarith, ?_, ?_, ?_, Or.inl rfl⟩
  · intro _
    norm_num [CAPTURE_TIME]
  · intro hcontra
    simp at hcontra
  · intro hcontra
    simp at hcontra

lemma addPlayer_fields (m : Mode) (name team : String) :
    (addPlayer m name team).progress1 = m.progress1 ∧
    (addPlayer m name team).progress2 = m.progress2 ∧
    (addPlayer m name team).controlling_team = m.controlling_team := by
  simp only [addPlayer]
  split_ifs <;> exact ⟨rfl, rfl, rfl⟩

lemma enterPoint_fields (m : Mode) (p : String) :
    (enterPoint m p).progress1 = m.progress1 ∧
    (enterPoint m p).progress2 = m.progress2 ∧
    (enterPoint m p).controlling_team = m.controlling_team := by
  unfold enterPoint
  cases lookupStats m p with
  | none => exact ⟨rfl, rfl, rfl⟩
  | some st =>
    simp only []
    split_ifs <;> exact ⟨rfl, rfl, rfl⟩

lemma leavePoint_fields (m : Mode) (p : String) :
    (leavePoint m p).progress1 = m.progress1 ∧
    (leavePoint m p).progress2 = m.progress2 ∧
    (leavePoint m p).controlling_team = m.controlling_team := by
  unfold leavePoint
  cases lookupStats m p with
  | none => exact ⟨rfl, rfl, rfl⟩
  | some st =>
    simp only []
    split_ifs <;> exact ⟨rfl, rfl, rfl⟩

lemma onKillMode_fields (m : Mode) (k v : String) (onp : Bool) :
    (onKillMode m k v onp).progress1 = m.progress1 ∧
    (onKillMode m k v onp).progress2 = m.progress2 ∧
    (onKillMode m k v onp).controlling_team = m.controlling_team := by
  unfold onKillMode
  cases lookupStats m k with
  | none => exact ⟨rfl, rfl, rfl⟩
  | some ks =>
    cases lookupStats m v with
    | none => exact ⟨rfl, rfl, rfl⟩
    | some vs =>
      simp only [setStats]
      split_ifs <;> exact ⟨rfl, rfl, rfl⟩

lemma progOK_applyAOps {D : ℚ} {m : Mode} (h : progOK D m) (hD : 0 ≤ D)
    (ops : List AOp) (hops : ∀ op ∈ ops, boundedAOp D op) :
    progOK D (applyAOps m ops) := by
  induction ops generalizing m with
  | nil => exact h
  | cons op rest ih =>
    have hop := hops op (by simp)
    have hrest : ∀ o ∈ rest, boundedAOp D o := fun o ho => hops o (by simp [ho])
    cases op with
    | start now => exact ih (progOK_startMatch hD m now) hrest
    | add name team =>
      obtain ⟨e1, e2, e3⟩ := addPlayer_fields m name team
      exact ih (progOK_congr e1 e2 e3 h) hrest
    | enter p =>
      obtain ⟨e1, e2, e3⟩ := enterPoint_fields m p
      exact ih (progOK_congr e1 e2 e3 h) hrest
    | leave p =>
      obtain ⟨e1, e2, e3⟩ := leavePoint_fields m p
      exact ih (progOK_congr e1 e2 e3 h) hrest
    | tick dt now => exact ih (progOK_update h hD hop.1 hop.2 now) hrest
    | kill k v onp =>
      obtain ⟨e1, e2, e3⟩ := onKillMode_fields m k v onp
      exact ih (progOK_congr e1 e2 e3 h) hrest
    | finish now =>
      obtain ⟨e1, e2, e3⟩ := endMatch_fields m now
      exact ih (progOK_congr e1 e2 e3 h) hrest

lemma progOK_initMode {D : ℚ} (hD : 0 ≤ D) (n1 n2 : String) :
    progOK D (initMode n1 n2) := by
  unfold progOK initMode
  refine ⟨le_refl 0, by norm_num [CAPTURE_TIME]; linarith, le_refl 0,
    by norm_num [CAPTURE_TIME]; linarith, ?_, ?_, ?_, Or.inl rfl⟩
  · intro _
    norm_num [CAPTURE_TIME]
  · intro hcontra
    simp at hcontra
  · intro hcontra
    simp at hcontra

/-- C7 amended: over any driver script whose tick lengths lie in
[0, D], both teams' capture progress stays within
[0, CAPTURE_TIME + D] (the capturing tick can overshoot `CAPTURE_TIME`
by at most one tick), and the single controlling-team field names at
most one team. -/
theorem control_point_bounds (D : ℚ) (hD : 0 ≤ D) (n1 n2 : String)
    (ops : List AOp) (hops : ∀ op ∈ ops, boundedAOp D op) :
    0 ≤ (applyAOps (initMode n1 n2) ops).progress1 ∧
    (applyAOps (initMode n1 n2) ops).progress1 ≤ CAPTURE_TIME + D ∧
    0 ≤ (applyAOps (initMode n1 n2) ops).progress2 ∧
    (applyAOps (initMode n1 n2) ops).progress2 ≤ CAPTURE_TIME + D ∧
    ∀ t t', (applyAOps (initMode n1 n2) ops).controlling_team = some t →
      (applyAOps (initMode n1 n2) ops).controlling_team = some t' → t = t' := by
  have h := progOK_applyAOps (progOK_initMode hD n1 n2) hD ops hops
  obtain ⟨a1, a2, a3, a4, _, _, _, _⟩ := h
  refine ⟨a1, a2, a3, a4, ?_⟩
  intro t t' h1 h2
  rw [h1] at h2
  exact (Option.some.inj h2)

/-- C7 witness: the bounds instantiated at the overshoot script with
tick bound D = 2. -/
theorem control_point_bounds_witness :
    0 ≤ (applyAOps (initMode "V" "A") overshootOps).progress1 ∧
    (applyAOps (initMode "V" "A") overshootOps).progress1 ≤ CAPTURE_TIME + 2 ∧
    0 ≤ (applyAOps (initMode "V" "A") overshootOps).progress2 ∧
    (applyAOps (initMode "V" "A") overshootOps).progress2 ≤ CAPTURE_TIME + 2 ∧
    ∀ t t', (applyAOps (initMode "V" "A") overshootOps).controlling_team = some t →
      (applyAOps (initMode "V" "A") overshootOps).controlling_team = some t' → t = t' :=
  control_point_bounds 2 (by norm_num) "V" "A" overshootOps
    (by
      intro op hop
      simp [overshootOps] at hop
      rcases hop with rfl | rfl | rfl | rfl <;> simp [boundedAOp])

/-- C7 counterexample: after the capture tick, team1's progress is 4,
strictly above `CONTROL_POINT_CAPTURE_TIME = 3`: progress is never
clamped to the capture time. -/
theorem capture_overshoot :
    (applyAOps (initMode "V" "A") overshootOps).progress1 = 4 ∧
    CAPTURE_TIME < (applyAOps (initMode "V" "A") overshootOps).progress1 := by
  have hv : (applyAOps (initMode "V" "A") overshootOps).progress1 = 4 := by
    norm_num +decide [applyAOps, applyAOp, overshootOps, update, pointTick, processCapture,
      mineStep, phaseStep, controlPercent, addPlayer, enterPoint, lookupStats, setStats,
      creditMining, creditCaptures, initMode, MATCH_DURATION, CAPTURE_TIME,
      RTC_MINING_RATE, ATTACK_THRESHOLD, List.find?, List.filter]
  exact ⟨hv, by rw [hv]; norm_num [CAPTURE_TIME]⟩

/-- C8 amended: `update(dt)` itself checks elapsed wall-clock time
against the configured duration: at or past the duration it performs the
full settlement (`end_match`), before it no settlement output is ever
produced. -/
theorem update_settlement_condition (m : Mode) (dt now : ℚ) :
    (m.match_duration ≤ now - m.match_start →
      (update m dt now).1 = (endMatch m now).2 ∧
      (update m dt now).2 = UpdateOut.ended (endMatch m now).1) ∧
    (now - m.match_start < m.match_duration →
      ∀ r, (update m dt now).2 ≠ UpdateOut.ended r) := by
  constructor
  · intro hle
    simp only [update]
    rw [if_pos hle]
    exact ⟨rfl, rfl⟩
  · intro hlt r
    simp only [update]
    rw [if_neg (by linarith)]
    simp

/-- C8 witness: the settlement condition instantiated at the demo match
at times 600 (expired) and 100 (running). -/
theorem update_settlement_condition_witness :
    ((update demoMatch (1/10) 600).2 = UpdateOut.ended (endMatch demoMatch 600).1) ∧
    (∀ r, (update demoMatch (1/10) 100).2 ≠ UpdateOut.ended r) :=
  ⟨((update_settlement_condition demoMatch (1/10) 600).1
      (by norm_num [demoMatch, MATCH_DURATION])).2,
   (update_settlement_condition demoMatch (1/10) 100).2
      (by norm_num [demoMatch, MATCH_DURATION])⟩

/-- C8 counterexample: a single `update` tick at the configured
duration settles the match: it applies the winner bonus (team1's total
goes from 0.1 to 0.6) and returns the settlement result, so settlement
is not reserved to an explicit end-of-match call. -/
theorem update_performs_settlement :
    (update demoMatch (1/10) 600).1.team1.rtc_mined = 6/10 ∧
    demoMatch.team1.rtc_mined = 1/10 ∧
    (update demoMatch (1/10) 600).2 = UpdateOut.ended (endMatch demoMatch 600).1 := by
  refine ⟨?_, by norm_num [demoMatch], ?_⟩
  · norm_num +decide [update, endMatch, endWinner, applySettlementBonus, distributeTeam,
      controlPercent, demoMatch, LOSER_PENALTY, MATCH_DURATION, List.filter]
  · norm_num +decide [update, demoMatch, MATCH_DURATION]

/-- C1: `end_match` has no settled flag: a second call re-applies the
winner bonus pool (+0.5) and halves the loser's total again, so the two
calls return different settlements (0.6 then 1.1 for team1). -/
theorem end_match_double_settlement :
    (endMatch demoMatch 600).1.team1_rtc_final = some (6/10) ∧
    (endMatch demoMatch 600).1.team2_rtc_final = some (1/10) ∧
    (endMatch (endMatch demoMatch 600).2 600).1.team1_rtc_final = some (11/10) ∧
    (endMatch (endMatch demoMatch 600).2 600).1.team2_rtc_final = some (1/20) ∧
    (endMatch (endMatch demoMatch 600).2 600).1 ≠ (endMatch demoMatch 600).1 := by
  have c1 : (endMatch demoMatch 600).1.team1_rtc_final = some (6/10) := by
    norm_num +decide [endMatch, endWinner, applySettlementBonus, distributeTeam,
      controlPercent, demoMatch, LOSER_PENALTY, MATCH_DURATION, List.filter]
  have c2 : (endMatch demoMatch 600).1.team2_rtc_final = some (1/10) := by
    norm_num +decide [endMatch, endWinner, applySettlementBonus, distributeTeam,
      controlPercent, demoMatch, LOSER_PENALTY, MATCH_DURATION, List.filter]
  have c3 : (endMatch (endMatch demoMatch 600).2 600).1.team1_rtc_final = some (11/10) := by
    norm_num +decide [endMatch, endWinner, applySettlementBonus, distributeTeam,
      controlPercent, demoMatch, LOSER_PENALTY, MATCH_DURATION, List.filter]
  have c4 : (endMatch (endMatch demoMatch 600).2 600).1.team2_rtc_final = some (1/20) := by
    norm_num +decide [endMatch, endWinner, applySettlementBonus, distributeTeam,
      controlPercent, demoMatch, LOSER_PENALTY, MATCH_DURATION, List.filter]
  refine ⟨c1, c2, c3, c4, fun heq => ?_⟩
  rw [heq, c1] at c3
  simp at c3
  norm_num at c3

end Attack
end RustChain

